import Mathlib

/-!
# kodo-ns3-examples: coded relaying over a lossy wifi link

A shallow embedding of

* `src/adhoc_simulations/code-header.cc` (the generation header and its wire codec),
* `src/Protocol0_PromiscousMode/pep-wifi-net-device.cc` (sender, send loop, receiver and
  relay of `PepWifiNetDevice`), and
* `src/adhoc_simulations/pep-wifi-net-device.cc` (receiver and send loop).

Bytes are natural numbers below 256, packets are lists of bytes, link addresses
(`Mac48Address`) are natural numbers.  Calls into ns-3 (`WifiNetDevice::Send`,
`Simulator::Schedule`, the receive callback) are recorded, in program order, in a list of
effects returned next to the new state.
-/

namespace Adhoc

/-! ## `code-header.cc` -/

/-- The data members of `CodeHeader` that `code-header.cc` reads and writes:
`m_generation` is a `uint16_t`, `code` the coding-enabled flag. -/
structure CodeHeader where
  m_generation : Nat
  code : Nat
  deriving DecidableEq, Repr

namespace CodeHeader

/-- `CodeHeader::CodeHeader ()`: generation 0, `code = 1`. -/
def new : CodeHeader := { m_generation := 0, code := 1 }

/-- `CodeHeader::GetSerializedSize`. -/
def GetSerializedSize (_h : CodeHeader) : Nat := 4

/-- `Buffer::Iterator::WriteHtonU16` of ns-3: the high byte, then the low byte, written over
the first two bytes at the iterator. `start` is the content of the buffer from the iterator
on. -/
def WriteHtonU16 (start : List Nat) (data : Nat) : List Nat :=
  (data / 256) % 256 :: data % 256 :: start.drop 2

/-- `Buffer::Iterator::ReadNtohU16` of ns-3: the first byte shifted left by 8, or-ed with the
second (bytes are below 256, so the or is a sum), in a `uint16_t`. -/
def ReadNtohU16 (start : List Nat) : Nat :=
  ((start.getD 0 0 % 256) * 256 + start.getD 1 0 % 256) % 65536

/-- `CodeHeader::Serialize`: writes `m_generation` and nothing else. `start` is the region of
`GetSerializedSize ()` bytes that `Packet::AddHeader` reserved in front of the packet. -/
def Serialize (h : CodeHeader) (start : List Nat) : List Nat :=
  WriteHtonU16 start h.m_generation

/-- `CodeHeader::Deserialize`: reads `m_generation`, returns the number of bytes consumed.
No other member is assigned. -/
def Deserialize (h : CodeHeader) (start : List Nat) : Nat × CodeHeader :=
  (4, { h with m_generation := ReadNtohU16 start })

/-- `CodeHeader::SetGeneration (uint16_t generation)`. -/
def SetGeneration (h : CodeHeader) (generation : Nat) : CodeHeader :=
  { h with m_generation := generation % 65536 }

/-- `CodeHeader::GetGeneration`. -/
def GetGeneration (h : CodeHeader) : Nat := h.m_generation

/-- `CodeHeader::EnableCode`. -/
def EnableCode (h : CodeHeader) : CodeHeader := { h with code := 1 }

/-- `CodeHeader::DisableCode`. -/
def DisableCode (h : CodeHeader) : CodeHeader := { h with code := 0 }

/-- `CodeHeader::GetCode`, a `uint16_t`. -/
def GetCode (h : CodeHeader) : Nat := h.code % 65536

end CodeHeader

end Adhoc

namespace Protocol0

/-! ## `Protocol0_PromiscousMode/pep-wifi-net-device.cc`: data model -/

/-- Modelled from the spec: the `CodeHeader` class Protocol0 is compiled against (the one with
`GetSourceMAC` / `SetSourceMAC`) is not among the sources. Its members are the three the
spec lists for the Generation Header and `pep-wifi-net-device.cc` uses: the generation id
(`uint16_t`), the origin address and the coding-enabled flag. -/
structure CodeHeader where
  m_generation : Nat
  m_source : Nat
  code : Nat
  deriving DecidableEq, Repr

namespace CodeHeader

/-- Modelled from the spec: the constructor, as in `code-header.cc`: generation 0, coding
enabled; the origin is the all-zero address until `SetSourceMAC`. -/
def new : CodeHeader := { m_generation := 0, m_source := 0, code := 1 }

/-- Modelled from the spec: `SetGeneration (uint16_t)`. -/
def SetGeneration (h : CodeHeader) (generation : Nat) : CodeHeader :=
  { h with m_generation := generation % 65536 }

/-- Modelled from the spec: `GetGeneration`. -/
def GetGeneration (h : CodeHeader) : Nat := h.m_generation

/-- Modelled from the spec: `SetSourceMAC`. -/
def SetSourceMAC (h : CodeHeader) (source : Nat) : CodeHeader := { h with m_source := source }

/-- Modelled from the spec: `GetSourceMAC`. -/
def GetSourceMAC (h : CodeHeader) : Nat := h.m_source

/-- Modelled from the spec: `DisableCode` clears the coding-enabled flag. -/
def DisableCode (h : CodeHeader) : CodeHeader := { h with code := 0 }

/-- Modelled from the spec: `GetCode`. -/
def GetCode (h : CodeHeader) : Nat := h.code

end CodeHeader

/-- Modelled from the spec: `Packet::AddHeader` and `Packet::RemoveHeader` for Protocol0's
`CodeHeader`, whose `Serialize` / `Deserialize` are not among the sources. They are
parameters of the model; no round-trip property is assumed of them. -/
structure Wire where
  AddHeader : CodeHeader → List Nat → List Nat
  RemoveHeader : List Nat → CodeHeader × List Nat

/-- A kodo `rlnc_encoder` seen from outside: the parameters it was built with, the block
handed over by the last `set_symbols`, and how many times `encode` has been called. -/
structure Encoder where
  symbols : Nat
  symbol_size : Nat
  m_data : List Nat
  encoded : Nat
  deriving DecidableEq, Repr

/-- A kodo `rlnc_decoder` seen from outside: the parameters it was built with and the
payloads passed to `decode` so far, oldest first. Two decoder objects are told apart by
what was fed to them. -/
structure Decoder where
  symbols : Nat
  symbol_size : Nat
  fed : List (List Nat)
  deriving DecidableEq, Repr

/-- The kodo coding primitive (external library): what an encoder or decoder answers, as a
function of its build parameters and history. -/
structure Kodo where
  enc_payload_size : Encoder → Nat
  encode : Encoder → List Nat
  dec_payload_size : Decoder → Nat
  rank : Decoder → Nat
  is_complete : Decoder → Bool
  copy_symbols : Decoder → List Nat
  recode : Decoder → List Nat

/-- `m_encoder_factory.build (symbols, symbol_size)`. -/
def Encoder.build (symbols symbol_size : Nat) : Encoder :=
  { symbols := symbols, symbol_size := symbol_size, m_data := [], encoded := 0 }

/-- `encoder->block_size ()`: kodo's `symbols * symbol_size`. -/
def Encoder.block_size (e : Encoder) : Nat := e.symbols * e.symbol_size

/-- `kodo::set_symbols (kodo::storage (data), encoder)`. -/
def Encoder.set_symbols (e : Encoder) (data : List Nat) : Encoder := { e with m_data := data }

/-- The encoder after one `encode` call. -/
def Encoder.afterEncode (e : Encoder) : Encoder := { e with encoded := e.encoded + 1 }

/-- `m_decoder_factory.build (symbols, symbol_size)`. -/
def Decoder.build (symbols symbol_size : Nat) : Decoder :=
  { symbols := symbols, symbol_size := symbol_size, fed := [] }

/-- `decoder->block_size ()`: kodo's `symbols * symbol_size`. -/
def Decoder.block_size (d : Decoder) : Nat := d.symbols * d.symbol_size

/-- `decoder->decode (buffer)`. -/
def Decoder.decode (d : Decoder) (buffer : List Nat) : Decoder :=
  { d with fed := d.fed ++ [buffer] }

/-- A `std::vector<uint8_t>` of `n` bytes (zero-initialised) into which a library call has
written `l`. -/
def fit (n : Nat) (l : List Nat) : List Nat := (l ++ List.replicate n 0).take n

/-- `memcpy (&dst[off], src, src.size ())` on a vector `dst`. Bytes that would fall past the
end of `dst` (undefined behaviour in C++) are not written. -/
def memcpy (dst : List Nat) (off : Nat) (src : List Nat) : List Nat :=
  (dst.take off ++ src ++ dst.drop (off + src.length)).take dst.length

/-- `m[k] = v` on a `std::map` or array indexed by integers. -/
def assign {α : Type} (m : Nat → α) (k : Nat) (v : α) : Nat → α :=
  fun j => if j = k then v else m j

/-- The `coded` record that the send loop of one generation carries from tick to tick. -/
structure coded where
  t2 : Nat
  k : Nat
  m_encoder : Encoder
  protocolNumber : Nat
  h1 : CodeHeader
  realTo : Nat
  m_encoder_data : List Nat
  deriving DecidableEq, Repr

/-- Calls out of the device, in program order. -/
inductive Effect where
  /-- `WifiNetDevice::Send (packet, dest, protocolNumber)`. -/
  | Send (packet : List Nat) (dest : Nat) (protocolNumber : Nat)
  /-- `Simulator::Schedule (Seconds (delay), &PepWifiNetDevice::SendCode, this, m_coded)`. -/
  | Schedule (delay : Nat) (m_coded : coded)
  /-- `m_mac->NotifyRx (packet)`. -/
  | NotifyRx (packet : List Nat)
  /-- `m_receiveCallback (this, packet, type, from)`: delivery to the layer above. -/
  | ReceiveCallback (packet : List Nat) (type : Nat) (sender : Nat)
  deriving DecidableEq, Repr

/-- The frames handed to `WifiNetDevice::Send`, in order: packet, destination, protocol. -/
def sent : List Effect → List (List Nat × Nat × Nat)
  | [] => []
  | Effect.Send p d n :: es => (p, d, n) :: sent es
  | _ :: es => sent es

/-- The packets handed to the upward receive callback, in order. -/
def delivered : List Effect → List (List Nat)
  | [] => []
  | Effect.ReceiveCallback p _ _ :: es => p :: delivered es
  | _ :: es => delivered es

/-- The `SendCode` ticks scheduled, in order: delay and record. -/
def scheduled : List Effect → List (Nat × coded)
  | [] => []
  | Effect.Schedule d c :: es => (d, c) :: scheduled es
  | _ :: es => scheduled es

/-- The members of `PepWifiNetDevice` that stay fixed while the device runs: the attributes
(`SymbolsNum`, `EnableCode`, `EnableRecode`, `RelayActivity`), `max_size` and `interval`
(milliseconds) from the constructor, the address `m_mac->GetAddress ()`, and two build
switches of ns-3: whether `NS_ASSERT` is compiled in and whether the arguments of
`NS_LOG_DEBUG` are evaluated. -/
structure Config where
  address : Nat
  max_symbols : Nat
  max_size : Nat
  code : Nat
  recode : Nat
  relay_activity : Nat
  interval : Nat
  ns3_assert : Bool
  ns3_log : Bool
  deriving DecidableEq, Repr

/-- The members of `PepWifiNetDevice` that the sender and the receiver change.
`decoded_flag` and `decoding` are indexed by generation id; an id never written reads as 0,
respectively as absent. `generation` counts the generations created: only its value modulo
65536 is ever observed (through `SetGeneration (uint16_t)`), which is the same for every
integer width of at least 16 bits, so the counter itself is kept unbounded; the remaining
numbers are diagnostic counters. -/
structure State where
  m_queue : List (List Nat)
  generation : Nat
  decoded_flag : Nat → Nat
  decoding : Nat → Option Decoder
  encoder : Encoder
  sent_packet : Nat
  received : Nat
  countcode : Nat
  from_source : Nat
  from_relay : Nat
  rank : Nat
  inc : Nat
  ninc : Nat
  rsource : Nat

/-- `PepWifiNetDevice::PepWifiNetDevice ()`, for the members of `State`: `generation = 1`,
an encoder built with 30 symbols of 128 bytes, everything else zero or empty. -/
def State.init : State :=
  { m_queue := [], generation := 1, decoded_flag := fun _ => 0, decoding := fun _ => none,
    encoder := Encoder.build 30 128, sent_packet := 0, received := 0, countcode := 0,
    from_source := 0, from_relay := 0, rank := 0, inc := 0, ninc := 0, rsource := 0 }

/-- The constructor's values of the fixed members, for a device with the given address:
30 symbols of 128 bytes, coding and recoding on, `relay_activity = 100`, half a second. -/
def Config.init (address : Nat) : Config :=
  { address := address, max_symbols := 30, max_size := 128, code := 1, recode := 1,
    relay_activity := 100, interval := 500, ns3_assert := true, ns3_log := false }

/-! ## Sender -/

/-- `PepWifiNetDevice::Enqueue1`: `m_queue.push_back (packet)`. -/
def Enqueue1 (s : State) (packet : List Nat) : State :=
  { s with m_queue := s.m_queue ++ [packet] }

/-- One round of the loop in `coding`: `front`, `pop_front`, and the `memcpy` of the packet
to offset `i * size` of the block. (`front` on an empty queue does not happen: the loop
runs `max_symbols` times on a queue of `max_symbols` packets.) -/
def drainStep (size : Nat) (acc : List (List Nat) × List Nat) (i : Nat) :
    List (List Nat) × List Nat :=
  match acc.1 with
  | [] => acc
  | p :: rest => (rest, memcpy acc.2 (i * size) p)

/-- `PepWifiNetDevice::coding`. `dest` is a `Mac48Address`, so the `NS_ASSERT` on its type
holds. Returns the status, the new state and the effects. -/
def coding (cfg : Config) (s : State) (packet : List Nat) (dest : Nat) (protocolNumber : Nat) :
    Bool × State × List Effect :=
  let s1 := Enqueue1 s packet
  if s1.m_queue.length = cfg.max_symbols then
    let encoder := Encoder.build cfg.max_symbols packet.length
    let h1 := (CodeHeader.new.SetGeneration s1.generation).SetSourceMAC cfg.address
    let loop := (List.range cfg.max_symbols).foldl (drainStep packet.length)
      (s1.m_queue, List.replicate encoder.block_size 0)
    let m_coded : coded :=
      { t2 := cfg.interval, k := 0, m_encoder := encoder, protocolNumber := protocolNumber,
        h1 := h1, realTo := dest, m_encoder_data := loop.2 }
    (true,
     { s1 with
       encoder := encoder
       generation := s1.generation + 1
       m_queue := loop.1
       decoded_flag := assign s1.decoded_flag h1.GetGeneration 0 },
     [Effect.Schedule cfg.interval m_coded])
  else
    (true, s1, [])

/-- `PepWifiNetDevice::SendCode`: one tick of the send loop of `m_coded`. The record is
shared with the next tick, which therefore sees `k` and the encoder as this tick left
them. -/
def SendCode (kodo : Kodo) (wire : Wire) (cfg : Config) (s : State) (m_coded : coded) :
    State × List Effect :=
  if s.decoded_flag m_coded.h1.GetGeneration = 0 then
    let enc := m_coded.m_encoder.set_symbols m_coded.m_encoder_data
    let payload := fit (kodo.enc_payload_size enc) (kodo.encode enc)
    let pkt := wire.AddHeader m_coded.h1 payload
    let m_coded1 := { m_coded with k := m_coded.k + 1, m_encoder := enc.afterEncode }
    ({ s with sent_packet := s.sent_packet + 1 },
     [Effect.Send pkt m_coded.realTo m_coded.protocolNumber,
      Effect.Schedule cfg.interval m_coded1])
  else
    (s, [])

/-- `PepWifiNetDevice::Send`. `wifiSendResult` is what `WifiNetDevice::Send` returns when it
is called; the function does not look at it. -/
def Send (cfg : Config) (s : State) (packet : List Nat) (dest : Nat) (protocolNumber : Nat)
    (wifiSendResult : Bool) : Bool × State × List Effect :=
  if cfg.code = 1 ∧ protocolNumber ≠ 2054 then
    let r := coding cfg s packet dest protocolNumber
    (true, r.2.1, r.2.2)
  else
    (true, s, [Effect.Send packet dest protocolNumber])

/-! ## Receiver -/

/-- The decoder that `DecodingReceive` uses for generation id `g`: the one stored in
`decoding` under `g`, built with `(max_symbols, max_size)` when `find` reports none.
The key is the generation id alone. -/
def slot (cfg : Config) (s : State) (g : Nat) : Decoder :=
  match s.decoding g with
  | some d => d
  | none => Decoder.build cfg.max_symbols cfg.max_size

/-- The block reconstructed from a decoder: a vector of `block_size ()` bytes filled by
`kodo::copy_symbols`. -/
def data_out (kodo : Kodo) (d : Decoder) : List Nat :=
  fit d.block_size (kodo.copy_symbols d)

/-- The `i`-th packet of the delivery loop: `max_size` bytes copied from offset
`i * max_size` of the reconstructed block. -/
def symbolAt (cfg : Config) (block : List Nat) (i : Nat) : List Nat :=
  (block.drop (i * cfg.max_size)).take cfg.max_size

/-- The delivery loop of `DecodingReceive`: for `i = 0 .. max_symbols - 1`, `NotifyRx` and
the receive callback on the `i`-th packet. -/
def deliverLoop (cfg : Config) (block : List Nat) (type sender : Nat) : List Effect :=
  (List.range cfg.max_symbols).flatMap fun i =>
    [Effect.NotifyRx (symbolAt cfg block i),
     Effect.ReceiveCallback (symbolAt cfg block i) type sender]

/-- The acknowledgement packet: ten zero bytes under the header `h1` with the coding flag
cleared. -/
def ACK (wire : Wire) (h1 : CodeHeader) : List Nat :=
  wire.AddHeader h1.DisableCode (List.replicate 10 0)

/-- Lines 249-254: `from_source++` when the frame comes straight from its origin. -/
def countFromSource (s : State) (sender source : Nat) : State :=
  if sender = source then { s with from_source := s.from_source + 1 } else s

/-- Lines 269-277: `received++`, and `from_relay++` when the frame comes from a relay. -/
def countReceived (s : State) (sender source : Nat) : State :=
  if sender ≠ source then
    { s with received := s.received + 1, from_relay := s.from_relay + 1 }
  else
    { s with received := s.received + 1 }

/-- Lines 281-289: the decoder of generation id `g` is fetched, or created and stored; its
rank before decoding is kept in `rank`. -/
def fetchDecoder (kodo : Kodo) (cfg : Config) (s : State) (g : Nat) : State :=
  { s with decoding := assign s.decoding g (some (slot cfg s g)),
           rank := kodo.rank (slot cfg s g) }

/-- The state of `DecodingReceive` at line 290, for a frame with header `h1` that is not
from this node: the counters are updated and the decoder of the frame's generation id is
in `decoding`. -/
def arrived (kodo : Kodo) (cfg : Config) (s : State) (h1 : CodeHeader) (sender : Nat) : State :=
  fetchDecoder kodo cfg
    (countReceived (countFromSource s sender h1.GetSourceMAC) sender h1.GetSourceMAC)
    h1.GetGeneration

/-- Lines 301-315: the diagnostic counters after `decode`: `inc`, `ninc`, and `rsource`
(incremented inside the argument of `NS_LOG_DEBUG`). `r` is the rank after decoding. -/
def countRank (cfg : Config) (s : State) (r : Nat) (sender source : Nat) : State :=
  { s with
    inc := if s.rank + 1 = r ∧ sender ≠ source then s.inc + 1 else s.inc
    ninc := if s.rank = r ∧ sender ≠ source then s.ninc + 1 else s.ninc
    rsource := if sender = source ∧ cfg.ns3_log = true then s.rsource + 1 else s.rsource }

/-- Lines 296-315: the payload `packet` is fed to the decoder `decoder` of generation id
`h1.GetGeneration ()` (an object shared with `decoding`), then the diagnostic counters. -/
def afterDecode (kodo : Kodo) (cfg : Config) (s : State) (h1 : CodeHeader)
    (packet : List Nat) (decoder : Decoder) (sender : Nat) : State :=
  countRank cfg
    { s with decoding := assign s.decoding h1.GetGeneration (some (decoder.decode packet)) }
    (kodo.rank (decoder.decode packet)) sender h1.GetSourceMAC

/-- Lines 296-362 of `DecodingReceive`: the payload is fed to the decoder, then the two
completion branches. -/
def decodeAndDeliver (kodo : Kodo) (wire : Wire) (cfg : Config) (s : State) (h1 : CodeHeader)
    (packet : List Nat) (decoder : Decoder) (type sender : Nat) : Bool × State × List Effect :=
  let s5 := afterDecode kodo cfg s h1 packet decoder sender
  if kodo.is_complete (decoder.decode packet) = true ∧ s5.decoded_flag h1.GetGeneration = 0 then
    (true,
     { s5 with decoded_flag := assign s5.decoded_flag h1.GetGeneration 1,
               countcode := s5.countcode + 1 },
     Effect.Send (ACK wire h1) sender 100 ::
       deliverLoop cfg (data_out kodo (decoder.decode packet)) type sender)
  else if kodo.is_complete (decoder.decode packet) = true ∧
      s5.decoded_flag h1.GetGeneration = 1 then
    (true, s5, [Effect.Send (ACK wire h1) h1.GetSourceMAC 100])
  else
    (true, s5, [])

/-- `PepWifiNetDevice::DecodingReceive`, the receive callback installed when coding is on.
`sender` is the argument `from`. The result is `none` when a failed `NS_ASSERT` terminates
the program, and otherwise the returned status, the new state and the effects. -/
def DecodingReceive (kodo : Kodo) (wire : Wire) (cfg : Config) (s : State)
    (packet1 : List Nat) (type : Nat) (sender : Nat) : Option (Bool × State × List Effect) :=
  if type = 2054 then
    some (true, s, [Effect.NotifyRx packet1, Effect.ReceiveCallback packet1 type sender])
  else
    let h1 := (wire.RemoveHeader packet1).1
    let packet := (wire.RemoveHeader packet1).2
    let source := h1.GetSourceMAC
    let s1 := countFromSource s sender source
    if cfg.address = source then
      some (true, { s1 with decoded_flag := assign s1.decoded_flag h1.GetGeneration 1 }, [])
    else if cfg.code = 1 then
      let s4 := arrived kodo cfg s h1 sender
      let decoder := slot cfg s h1.GetGeneration
      if cfg.ns3_assert = true ∧ packet.length ≠ kodo.dec_payload_size decoder then
        none
      else
        some (decodeAndDeliver kodo wire cfg s4 h1 packet decoder type sender)
    else
      some (true, s1, [])

/-! ## Runs of a node -/

/-- What can happen at a node: `Send` of an outbound packet, `DecodingReceive` of an inbound
frame, a `SendCode` tick. -/
inductive Event where
  | Send (packet : List Nat) (dest : Nat) (protocolNumber : Nat) (wifiSendResult : Bool)
  | DecodingReceive (packet1 : List Nat) (type : Nat) (sender : Nat)
  | SendCode (m_coded : coded)
  deriving DecidableEq, Repr

/-- One event: the new state and the effects, or `none` when the program is terminated. -/
def step (kodo : Kodo) (wire : Wire) (cfg : Config) (s : State) :
    Event → Option (State × List Effect)
  | Event.Send packet dest protocolNumber r =>
      some (Send cfg s packet dest protocolNumber r).2
  | Event.DecodingReceive packet1 type sender =>
      (DecodingReceive kodo wire cfg s packet1 type sender).map fun r => r.2
  | Event.SendCode m_coded => some (SendCode kodo wire cfg s m_coded)

/-- The events of a run with the effects of each, up to the end of the list or to the
termination of the program. -/
def run (kodo : Kodo) (wire : Wire) (cfg : Config) : State → List Event →
    List (Event × List Effect)
  | _, [] => []
  | s, ev :: evs =>
    match step kodo wire cfg s ev with
    | none => []
    | some r => (ev, r.2) :: run kodo wire cfg r.1 evs

/-- Whether a step of a run hands packets of generation id `g` upwards: the event is a
non-ARP `DecodingReceive` whose header carries `g` and its effects contain a call of the
receive callback. -/
def deliversGeneration (wire : Wire) (g : Nat) (e : Event × List Effect) : Bool :=
  match e.1 with
  | Event.DecodingReceive packet1 type _ =>
      decide (type ≠ 2054) && decide ((wire.RemoveHeader packet1).1.GetGeneration = g) &&
        !(delivered e.2).isEmpty
  | _ => false

/-- Whether a step of a run is a `Send` in which `coding` creates a generation with id
`g`. -/
def createsGeneration (g : Nat) (e : Event × List Effect) : Bool :=
  match e.1 with
  | Event.Send _ _ _ _ => (scheduled e.2).any fun c => decide (c.2.h1.GetGeneration = g)
  | _ => false

/-! ## Relay -/

/-- `NetDevice::PacketType` of ns-3. -/
inductive PacketType where
  | PACKET_HOST
  | PACKET_BROADCAST
  | PACKET_MULTICAST
  | PACKET_OTHERHOST
  deriving DecidableEq, Repr

/-- The members of `PepWifiNetDevice` that `promisc` and `rencoding` change; they read and
write no member of `State`. `arrayMac` is the identity table, one origin address per slot,
the all-zero address marking a slot not yet taken; its capacity is the length of the list.
`array[seq][i]` is the number of the relay decoder of generation id `seq` for the origin in
slot `i`, and `forward` maps these numbers to the relay decoders. The declarations of the
two arrays are not among the sources: the first index of `array` is not bounded in the
model. The scratch member `payload` is written before every read and is left out; of the
scratch member `buffer1` the model keeps the size, see `buffer1_size`. -/
structure Relay where
  arrayMac : List Nat
  array : Nat → Nat → Nat
  recodedNum : Nat
  forward : Nat → Option Decoder
  seed : Nat
  sent_code : Nat
  received_relay : Nat

/-- `PepWifiNetDevice::PepWifiNetDevice ()`, for the members of `Relay`: `recodedNum = 0`,
`seed = 100`, the counters at 0, an identity table of `numNodes` empty slots (the
constructor sets `numNodes = 3`), no numbering and no relay decoder yet. -/
def Relay.init (numNodes : Nat) : Relay :=
  { arrayMac := List.replicate numNodes 0, array := fun _ _ => 0, recodedNum := 0,
    forward := fun _ => none, seed := 100, sent_code := 0, received_relay := 0 }

/-- How the slot search of `rencoding` ends at index `i`: on a slot holding the all-zero
address, on the slot of the origin, or by evaluating `arrayMac[i]` with `i` equal to the
capacity of the table (an access outside the array, undefined behaviour in C++). -/
inductive Slot where
  | free (i : Nat)
  | known (i : Nat)
  | outOfBounds (i : Nat)
  deriving DecidableEq, Repr

/-- The `while (insertMac==false)` loop of `rencoding`, as far as the index goes: `i` is the
current index and the list holds `arrayMac[i]`, `arrayMac[i+1]`, ... up to the end of the
table. There is no test of `i` against the capacity. -/
def findSlot (source : Nat) : List Nat → Nat → Slot
  | [], i => Slot.outOfBounds i
  | m :: rest, i =>
    if m = 0 then Slot.free i
    else if m ≠ source then findSlot source rest (i + 1)
    else Slot.known i

/-- `array[seq][i] = v`. -/
def assign2 (a : Nat → Nat → Nat) (seq i v : Nat) : Nat → Nat → Nat :=
  fun x y => if x = seq ∧ y = i then v else a x y

/-- The assignments of the slot search on a free slot: `arrayMac[i] = source` and
`array[seq][i] = recodedNum++`. -/
def takeSlot (s : Relay) (seq source i : Nat) : Relay :=
  { s with arrayMac := s.arrayMac.set i source
           array := assign2 s.array seq i s.recodedNum
           recodedNum := s.recodedNum + 1 }

/-- The assignment of the slot search on the slot of the origin:
`if (array[seq][i]==0) array[seq][i] = recodedNum++`. -/
def numberSlot (s : Relay) (seq i : Nat) : Relay :=
  if s.array seq i = 0 then
    { s with array := assign2 s.array seq i s.recodedNum
             recodedNum := s.recodedNum + 1 }
  else s

/-- Lines 173-195 of `rencoding`: the slot search with its assignments. The result is the
state after the loop and the decoder number `array[seq][i]` found there, or `none` when the
search leaves the table. -/
def resolve (s : Relay) (seq source : Nat) : Option (Relay × Nat) :=
  match findSlot source s.arrayMac 0 with
  | Slot.free i => some (takeSlot s seq source i, (takeSlot s seq source i).array seq i)
  | Slot.known i => some (numberSlot s seq i, (numberSlot s seq i).array seq i)
  | Slot.outOfBounds _ => none

/-- The relay decoder with number `n`: the one in `forward`, built with
`(max_symbols, max_size)` when `find` reports none. -/
def relayDecoder (cfg : Config) (s : Relay) (n : Nat) : Decoder :=
  match s.forward n with
  | some d => d
  | none => Decoder.build cfg.max_symbols cfg.max_size

/-- The size of the member `buffer1`: `buffer1 = new uint8_t[100]` in the constructor. -/
def buffer1_size : Nat := 100

/-- Lines 199-208 of `rencoding`: the relay decoder with number `n` is fetched or created,
the payload is copied into `buffer1` with `packet->CopyData (buffer1, packet->GetSize ())`,
fed to the decoder, and a recoded payload of `payload_size ()` bytes is taken from the
decoder. There is no test of the size of the payload against the size of `buffer1`: the
result is `none` when the copy writes past the end of `buffer1` (undefined behaviour in
C++). -/
def recodeWith (kodo : Kodo) (cfg : Config) (s : Relay) (packet : List Nat) (n : Nat) :
    Option (Relay × List Nat) :=
  if packet.length ≤ buffer1_size then
    some
      ({ s with forward := assign s.forward n (some ((relayDecoder cfg s n).decode packet)) },
       fit (kodo.dec_payload_size ((relayDecoder cfg s n).decode packet))
         (kodo.recode ((relayDecoder cfg s n).decode packet)))
  else
    none

/-- `PepWifiNetDevice::rencoding`: the new state and the recoded packet, or `none` when the
slot search leaves the identity table or the payload does not fit into `buffer1`. -/
def rencoding (kodo : Kodo) (cfg : Config) (s : Relay) (packet : List Nat) (seq source : Nat) :
    Option (Relay × List Nat) :=
  match resolve s seq source with
  | none => none
  | some r => recodeWith kodo cfg r.1 packet r.2

/-- The test at line 105 of `promisc`: the frame is not relayed when it is addressed to this
node, is an ARP frame, has its coding flag at 0 or comes from this node. -/
def notRelayed (cfg : Config) (h1 : CodeHeader) (type : Nat) (typ : PacketType) : Prop :=
  typ ≠ PacketType.PACKET_OTHERHOST ∨ type = 2054 ∨ h1.GetCode = 0 ∨
    h1.GetSourceMAC = cfg.address

instance (cfg : Config) (h1 : CodeHeader) (type : Nat) (typ : PacketType) :
    Decidable (notRelayed cfg h1 type typ) := by
  unfold notRelayed; infer_instance

/-- Line 110 of `promisc`: `received_relay++`, inside the argument of `NS_LOG_DEBUG`. -/
def countRelay (cfg : Config) (s : Relay) : Relay :=
  if cfg.ns3_log = true then { s with received_relay := s.received_relay + 1 } else s

/-- The draw of `promisc`: `rand () % 100 + 1`, where `r` is what `rand ()` returns. -/
def draw (r : Nat) : Nat := r % 100 + 1

/-- The end of both branches of `promisc`: `seed++`, and when the draw `d` exceeds
`relay_activity`, `sent_code++` and `WifiNetDevice::Send (pkt, to, type)` (`dest` is `to`). -/
def relay (cfg : Config) (s : Relay) (d : Nat) (pkt : List Nat) (dest type : Nat) :
    Bool × Relay × List Effect :=
  if d > cfg.relay_activity then
    (true, { s with seed := s.seed + 1, sent_code := s.sent_code + 1 },
     [Effect.Send pkt dest type])
  else
    (true, { s with seed := s.seed + 1 }, [])

/-- `PepWifiNetDevice::promisc`, the promiscuous receive callback. `rand x` is what the first
`rand ()` after `srand (x)` returns; `srand` takes an `unsigned int`. `sender` is the
argument `from`, `dest` the argument `to`. The result is `none` when `rencoding` has none: its slot search
leaves the identity table or the payload does not fit into `buffer1`. -/
def promisc (kodo : Kodo) (wire : Wire) (cfg : Config) (rand : Nat → Nat) (s : Relay)
    (packet1 : List Nat) (type : Nat) (sender dest : Nat) (typ : PacketType) :
    Option (Bool × Relay × List Effect) :=
  let h1 := (wire.RemoveHeader packet1).1
  let packet := (wire.RemoveHeader packet1).2
  if notRelayed cfg h1 type typ then
    some (true, s, [])
  else if cfg.recode = 1 then
    match rencoding kodo cfg (countRelay cfg s) packet h1.GetGeneration h1.GetSourceMAC with
    | none => none
    | some r =>
      some (relay cfg r.1 (draw (rand (r.1.seed % 4294967296))) (wire.AddHeader h1 r.2)
        dest type)
  else
    some (relay cfg (countRelay cfg s) (draw (rand h1.GetGeneration))
      (wire.AddHeader h1 packet) dest type)

/-- The relay decoder numbers that a sequence of `rencoding` calls resolves, each with the
key `(seq, source)` of its frame, for the frames fed to a relay decoder: up to the end of
the sequence or to the call in which the slot search leaves the table or the payload does
not fit into `buffer1`. A frame is a payload, a generation id and an origin. -/
def relayRun (kodo : Kodo) (cfg : Config) : Relay → List (List Nat × Nat × Nat) →
    List ((Nat × Nat) × Nat)
  | _, [] => []
  | s, f :: fs =>
    match resolve s f.2.1 f.2.2 with
    | none => []
    | some r =>
      match recodeWith kodo cfg r.1 f.1 r.2 with
      | none => []
      | some r1 => ((f.2.1, f.2.2), r.2) :: relayRun kodo cfg r1.1 fs

/-- A header codec for evaluation: generation id in two bytes, coding flag, origin. -/
def Wire.sample : Wire :=
  { AddHeader := fun h p =>
      h.m_generation / 256 :: h.m_generation % 256 :: h.code :: h.m_source :: p
    RemoveHeader := fun l =>
      ({ m_generation := l.getD 0 0 * 256 + l.getD 1 0, code := l.getD 2 0,
         m_source := l.getD 3 0 }, l.drop 4) }

/-- A coding primitive for evaluation, the systematic code on a lossless link: the `n`-th
payload is the `n`-th symbol of the block, the decoder's rank is the number of payloads it
has, up to `symbols`, and its block is their concatenation. -/
def Kodo.sample : Kodo :=
  { enc_payload_size := fun e => e.symbol_size
    encode := fun e => (e.m_data.drop ((e.encoded % e.symbols) * e.symbol_size)).take
      e.symbol_size
    dec_payload_size := fun d => d.symbol_size
    rank := fun d => min d.fed.length d.symbols
    is_complete := fun d => decide (d.symbols ≤ d.fed.length)
    copy_symbols := fun d => (d.fed.take d.symbols).flatten
    recode := fun d => d.fed.getLastD [] }

/-- A node with address 1 and generations of two symbols of two bytes. -/
def Config.sample : Config :=
  { Config.init 1 with max_symbols := 2, max_size := 2 }

/-- A node with address 1 and generations of one symbol of one byte. -/
def Config.single : Config :=
  { Config.init 1 with max_symbols := 1, max_size := 1 }

end Protocol0

namespace Adhoc

/-! ## `adhoc_simulations/pep-wifi-net-device.cc`: receiver and send loop -/

/-- `Packet::AddHeader` of ns-3 with the `CodeHeader` of `code-header.cc`: a region of
`GetSerializedSize ()` bytes is reserved in front of the packet (taken as zero bytes) and
the header is serialised into it. -/
def AddHeader (h : CodeHeader) (packet : List Nat) : List Nat :=
  h.Serialize (List.replicate h.GetSerializedSize 0) ++ packet

/-- `Packet::RemoveHeader` of ns-3 with the `CodeHeader` of `code-header.cc`: the header is
deserialised into a freshly constructed `CodeHeader` and the bytes it reports as consumed
are removed. -/
def RemoveHeader (packet : List Nat) : CodeHeader × List Nat :=
  ((CodeHeader.new.Deserialize packet).2, packet.drop (CodeHeader.new.Deserialize packet).1)

/-- The `coded` record of the send loop, with the header of `code-header.cc`. -/
structure coded where
  t2 : Nat
  k : Nat
  m_encoder : Protocol0.Encoder
  protocolNumber : Nat
  h1 : CodeHeader
  realTo : Nat
  m_encoder_data : List Nat
  deriving DecidableEq, Repr

/-- Calls out of the device, in program order. -/
inductive Effect where
  /-- `WifiNetDevice::Send (packet, dest, protocolNumber)`. -/
  | Send (packet : List Nat) (dest : Nat) (protocolNumber : Nat)
  /-- `Simulator::Schedule (Seconds (delay), &PepWifiNetDevice::SendCode, this, m_coded)`. -/
  | Schedule (delay : Nat) (m_coded : coded)
  /-- `m_mac->NotifyRx (packet)`. -/
  | NotifyRx (packet : List Nat)
  /-- `m_receiveCallback (this, packet, type, from)`. -/
  | ReceiveCallback (packet : List Nat) (type : Nat) (sender : Nat)
  deriving DecidableEq, Repr

/-- The members of the device that stay fixed while it runs: the address
`m_mac->GetAddress ()`, the attributes `SymbolsNum` and `EnableCode`, `max_size` and
`interval` (milliseconds) from the constructor, and whether `NS_ASSERT` is compiled in. -/
structure Config where
  address : Nat
  max_symbols : Nat
  max_size : Nat
  code : Nat
  interval : Nat
  ns3_assert : Bool
  deriving DecidableEq, Repr

/-- The members of the device that `DecodingReceive` and `SendCode` change. `decoded_flag`
and `decoding` are indexed by generation id; an id never written reads as 0, respectively
as absent. The other members are diagnostic counters. -/
structure State where
  decoded_flag : Nat → Nat
  decoding : Nat → Option Protocol0.Decoder
  sent_packet : Nat
  received : Nat
  countcode : Nat
  from_source : Nat
  from_relay : Nat
  rank : Nat
  inc : Nat
  ninc : Nat
  rsource : Nat

/-- `PepWifiNetDevice::PepWifiNetDevice ()`, for the members of `State`. -/
def State.init : State :=
  { decoded_flag := fun _ => 0, decoding := fun _ => none, sent_packet := 0, received := 0,
    countcode := 0, from_source := 0, from_relay := 0, rank := 0, inc := 0, ninc := 0,
    rsource := 0 }

/-- `Mac48Address ("00:00:00:00:00:01")`, the destination of the simulation. -/
def des : Nat := 1

/-- `Mac48Address ("00:00:00:00:00:02")`, the source of the simulation. -/
def source : Nat := 2

/-- `PepWifiNetDevice::SendCode` of `adhoc_simulations`: one tick of the send loop. -/
def SendCode (kodo : Protocol0.Kodo) (cfg : Config) (s : State) (m_coded : coded) :
    State × List Effect :=
  if s.decoded_flag m_coded.h1.GetGeneration = 0 then
    let enc := m_coded.m_encoder.set_symbols m_coded.m_encoder_data
    let payload := Protocol0.fit (kodo.enc_payload_size enc) (kodo.encode enc)
    ({ s with sent_packet := s.sent_packet + 1 },
     [Effect.Send (AddHeader m_coded.h1 payload) m_coded.realTo m_coded.protocolNumber,
      Effect.Schedule cfg.interval
        { m_coded with k := m_coded.k + 1, m_encoder := enc.afterEncode }])
  else
    (s, [])

/-- Lines 229-233: `from_source++` at the destination for a frame straight from the
source. -/
def countFromSource (cfg : Config) (s : State) (sender : Nat) : State :=
  if sender = source ∧ cfg.address = des then { s with from_source := s.from_source + 1 }
  else s

/-- Lines 249-274: `received++`, `from_relay++` for a frame not from the source, then the
decoder of generation id `g` is fetched, or created and stored, and its rank kept. -/
def arrived (kodo : Protocol0.Kodo) (d : Protocol0.Decoder) (s : State) (g sender : Nat) :
    State :=
  { s with received := s.received + 1
           from_relay := if sender ≠ source then s.from_relay + 1 else s.from_relay
           decoding := Protocol0.assign s.decoding g (some d)
           rank := kodo.rank d }

/-- Lines 280-299: the payload is fed to the decoder, then the diagnostic counters. `r` is
the rank after decoding. -/
def afterDecode (s : State) (g : Nat) (d1 : Protocol0.Decoder) (r sender : Nat) : State :=
  { s with decoding := Protocol0.assign s.decoding g (some d1)
           inc := if s.rank + 1 = r ∧ sender ≠ source then s.inc + 1 else s.inc
           ninc := if s.rank = r ∧ sender ≠ source then s.ninc + 1 else s.ninc
           rsource := if sender = source then s.rsource + 1 else s.rsource }

/-- The delivery loop, lines 327-336: the receive callback is given the destination's
address as sender. -/
def deliverLoop (cfg : Config) (block : List Nat) (type : Nat) : List Effect :=
  (List.range cfg.max_symbols).flatMap fun i =>
    [Effect.NotifyRx ((block.drop (i * cfg.max_size)).take cfg.max_size),
     Effect.ReceiveCallback ((block.drop (i * cfg.max_size)).take cfg.max_size) type des]

/-- Lines 305-346: the two completion branches. On first completion the acknowledgement
carries a freshly constructed header `h2` with `DisableCode ()`; on a duplicate it carries
the header `h1` of the frame. -/
def complete (kodo : Protocol0.Kodo) (cfg : Config) (s : State) (h1 : CodeHeader)
    (d1 : Protocol0.Decoder) (type sender : Nat) : Bool × State × List Effect :=
  if kodo.is_complete d1 = true ∧ s.decoded_flag h1.GetGeneration = 0 then
    (true,
     { s with decoded_flag := Protocol0.assign s.decoded_flag h1.GetGeneration 1
              countcode := s.countcode + 1 },
     Effect.Send (AddHeader CodeHeader.new.DisableCode (List.replicate 10 0)) sender 100 ::
       deliverLoop cfg (Protocol0.data_out kodo d1) type)
  else if kodo.is_complete d1 = true ∧ s.decoded_flag h1.GetGeneration = 1 then
    (true, s, [Effect.Send (AddHeader h1 (List.replicate 10 0)) source 100])
  else
    (true, s, [])

/-- The decoder that `DecodingReceive` uses for generation id `g`. -/
def slot (cfg : Config) (s : State) (g : Nat) : Protocol0.Decoder :=
  match s.decoding g with
  | some d => d
  | none => Protocol0.Decoder.build cfg.max_symbols cfg.max_size

/-- `PepWifiNetDevice::DecodingReceive` of `adhoc_simulations`. `sender` is the argument
`from`. The result is `none` when a failed `NS_ASSERT` terminates the program. -/
def DecodingReceive (kodo : Protocol0.Kodo) (cfg : Config) (s : State)
    (packet1 : List Nat) (type : Nat) (sender : Nat) : Option (Bool × State × List Effect) :=
  if type = 2054 then
    some (true, s, [Effect.NotifyRx packet1, Effect.ReceiveCallback packet1 type sender])
  else
    let s1 := countFromSource cfg s sender
    let h1 := (RemoveHeader packet1).1
    let packet := (RemoveHeader packet1).2
    if cfg.address = source ∧ sender = des then
      some (true,
        { s1 with decoded_flag := Protocol0.assign s1.decoded_flag h1.GetGeneration 1 }, [])
    else if cfg.address = des ∧ cfg.code = 1 then
      let d := slot cfg s1 h1.GetGeneration
      let s2 := arrived kodo d s1 h1.GetGeneration sender
      if cfg.ns3_assert = true ∧ packet.length ≠ kodo.dec_payload_size d then
        none
      else
        some (complete kodo cfg
          (afterDecode s2 h1.GetGeneration (d.decode packet) (kodo.rank (d.decode packet))
            sender)
          h1 (d.decode packet) type sender)
    else
      some (true, s1, [])

/-- A node of the simulation with the given address and generations of one symbol of one
byte, for evaluation. -/
def Config.single (address : Nat) : Config :=
  { address := address, max_symbols := 1, max_size := 1, code := 1, interval := 500,
    ns3_assert := true }

/-- The record of the send loop of generation `g` at the source, for evaluation: one symbol
`[77]`, sent to the destination. -/
def coded.single (g : Nat) : coded :=
  { t2 := 500, k := 0, m_encoder := Protocol0.Encoder.build 1 1, protocolNumber := 2048,
    h1 := CodeHeader.new.SetGeneration g, realTo := des, m_encoder_data := [77] }

end Adhoc

/-! ## Theorems: the header codec -/

namespace Adhoc

/-- C1 (evaluation of the code at the failing input): an acknowledgement header, built as
the receiver builds it (`CodeHeader h2; h2.DisableCode ()`), has `GetCode () = 0`, but the
header deserialised from its four wire bytes into a freshly constructed `CodeHeader` has
`GetCode () = 1`: `Serialize` never writes the flag and `Deserialize` never reads it. -/
theorem C1_ack_flag_lost_on_the_wire :
    CodeHeader.GetCode (CodeHeader.DisableCode CodeHeader.new) = 0 ∧
    CodeHeader.GetCode
      (CodeHeader.Deserialize CodeHeader.new
        (CodeHeader.Serialize (CodeHeader.DisableCode CodeHeader.new) [0, 0, 0, 0])).2 = 1 := by
  decide

/-- C2: for every 16-bit generation id `g`, every header `h` and every reserved region of
four bytes, `Serialize` of `h.SetGeneration g` writes `g / 256` at byte 0 and `g mod 256` at
byte 1 and keeps the region four bytes long, `GetSerializedSize` is 4, and `Deserialize` of
those bytes into any header returns 4 and leaves `GetGeneration () = g`. -/
theorem C2_generation_round_trip (g : Nat) (hg : g < 65536) (h h0 : CodeHeader)
    (start : List Nat) (hstart : start.length = 4) :
    (CodeHeader.Serialize (CodeHeader.SetGeneration h g) start).getD 0 0 = g / 256 ∧
    (CodeHeader.Serialize (CodeHeader.SetGeneration h g) start).getD 1 0 = g % 256 ∧
    (CodeHeader.Serialize (CodeHeader.SetGeneration h g) start).length = 4 ∧
    CodeHeader.GetSerializedSize (CodeHeader.SetGeneration h g) = 4 ∧
    (CodeHeader.Deserialize h0
      (CodeHeader.Serialize (CodeHeader.SetGeneration h g) start)).1 = 4 ∧
    CodeHeader.GetGeneration (CodeHeader.Deserialize h0
      (CodeHeader.Serialize (CodeHeader.SetGeneration h g) start)).2 = g := by
  have h1 : g % 65536 = g := Nat.mod_eq_of_lt hg
  have h2 : g / 256 % 256 = g / 256 := Nat.mod_eq_of_lt (by omega)
  refine ⟨?_, ?_, ?_, rfl, rfl, ?_⟩
  · simp [CodeHeader.Serialize, CodeHeader.SetGeneration, CodeHeader.WriteHtonU16, h1, h2]
  · simp [CodeHeader.Serialize, CodeHeader.SetGeneration, CodeHeader.WriteHtonU16, h1]
  · simp [CodeHeader.Serialize, CodeHeader.WriteHtonU16, hstart]
  · simp only [CodeHeader.GetGeneration, CodeHeader.Deserialize, CodeHeader.Serialize,
      CodeHeader.SetGeneration, CodeHeader.WriteHtonU16, CodeHeader.ReadNtohU16, h1, h2]
    simp only [List.getD_cons_zero, List.getD_cons_succ]
    omega

/-- Witness for C2 at `g = 0x1234` on a zeroed region. -/
theorem C2_generation_round_trip_witness :
    (CodeHeader.Serialize (CodeHeader.SetGeneration CodeHeader.new 4660) [0, 0, 0, 0]).getD 0 0
        = 4660 / 256 ∧
    (CodeHeader.Serialize (CodeHeader.SetGeneration CodeHeader.new 4660) [0, 0, 0, 0]).getD 1 0
        = 4660 % 256 ∧
    (CodeHeader.Serialize (CodeHeader.SetGeneration CodeHeader.new 4660) [0, 0, 0, 0]).length
        = 4 ∧
    CodeHeader.GetSerializedSize (CodeHeader.SetGeneration CodeHeader.new 4660) = 4 ∧
    (CodeHeader.Deserialize CodeHeader.new
      (CodeHeader.Serialize (CodeHeader.SetGeneration CodeHeader.new 4660) [0, 0, 0, 0])).1
        = 4 ∧
    CodeHeader.GetGeneration (CodeHeader.Deserialize CodeHeader.new
      (CodeHeader.Serialize (CodeHeader.SetGeneration CodeHeader.new 4660) [0, 0, 0, 0])).2
        = 4660 :=
  C2_generation_round_trip 4660 (by decide) CodeHeader.new CodeHeader.new [0, 0, 0, 0] rfl

end Adhoc

/-! ## Theorems: the sender -/

namespace Protocol0

/-- The drain loop pops one packet per round: after the rounds `is` the queue has lost its
first `is.length` packets. -/
theorem drain_queue (size : Nat) (is : List Nat) (q : List (List Nat)) (d : List Nat) :
    (is.foldl (drainStep size) (q, d)).1 = q.drop is.length := by
  induction is generalizing q d with
  | nil => simp
  | cons i is ih =>
    cases q with
    | nil => simp [List.foldl_cons, drainStep, ih]
    | cons p rest => simp [List.foldl_cons, drainStep, ih]

/-- C3: in `coding`, when the outbound queue holds fewer than `K = max_symbols` packets
(so `K ≥ 1`), enqueuing one packet either (a) leaves fewer than `K` packets queued: the
packet is appended at the tail, nothing else in the state changes and there is no effect;
or (b) brings the queue to `K`: the queue is empty afterwards, the only effect is one
scheduled send tick after `interval` for one new generation record, whose header carries the
generation counter modulo 65536, this node's address as origin and the coding flag set; the
counter grows by one, the decoded flag of that id becomes 0, the encoder member is the one
built for the generation, and nothing else in the state changes. -/
theorem C3_coding_batches (cfg : Config) (s : State) (packet : List Nat)
    (dest protocolNumber : Nat) (hq : s.m_queue.length < cfg.max_symbols) :
    1 ≤ cfg.max_symbols ∧
    (s.m_queue.length + 1 < cfg.max_symbols →
      coding cfg s packet dest protocolNumber
        = (true, { s with m_queue := s.m_queue ++ [packet] }, [])) ∧
    (s.m_queue.length + 1 = cfg.max_symbols →
      ∃ m_coded : coded,
        (coding cfg s packet dest protocolNumber).2.2
          = [Effect.Schedule cfg.interval m_coded] ∧
        m_coded.h1 = { m_generation := s.generation % 65536, m_source := cfg.address,
                       code := 1 } ∧
        m_coded.realTo = dest ∧ m_coded.protocolNumber = protocolNumber ∧
        (coding cfg s packet dest protocolNumber).2.1
          = { s with m_queue := []
                     generation := s.generation + 1
                     encoder := Encoder.build cfg.max_symbols packet.length
                     decoded_flag := assign s.decoded_flag (s.generation % 65536) 0 } ∧
        (coding cfg s packet dest protocolNumber).2.1.decoded_flag (s.generation % 65536)
          = 0) := by
  refine ⟨by omega, ?_, ?_⟩
  · intro h
    have hne : ¬ (s.m_queue.length + 1 = cfg.max_symbols) := by omega
    simp [coding, Enqueue1, hne]
  · intro h
    have hdrain : ((List.range cfg.max_symbols).foldl (drainStep packet.length)
        (s.m_queue ++ [packet],
          List.replicate (Encoder.build cfg.max_symbols packet.length).block_size 0)).1
        = [] := by
      rw [drain_queue]
      simp [h]
    refine ⟨{ t2 := cfg.interval, k := 0,
              m_encoder := Encoder.build cfg.max_symbols packet.length,
              protocolNumber := protocolNumber,
              h1 := (CodeHeader.new.SetGeneration s.generation).SetSourceMAC cfg.address,
              realTo := dest,
              m_encoder_data := ((List.range cfg.max_symbols).foldl (drainStep packet.length)
                (s.m_queue ++ [packet],
                  List.replicate (Encoder.build cfg.max_symbols packet.length).block_size
                    0)).2 }, ?_⟩
    have hc : coding cfg s packet dest protocolNumber
        = (true,
           { s with m_queue := []
                    generation := s.generation + 1
                    encoder := Encoder.build cfg.max_symbols packet.length
                    decoded_flag := assign s.decoded_flag (s.generation % 65536) 0 },
           [Effect.Schedule cfg.interval
              { t2 := cfg.interval, k := 0,
                m_encoder := Encoder.build cfg.max_symbols packet.length,
                protocolNumber := protocolNumber,
                h1 := (CodeHeader.new.SetGeneration s.generation).SetSourceMAC cfg.address,
                realTo := dest,
                m_encoder_data := ((List.range cfg.max_symbols).foldl
                  (drainStep packet.length)
                  (s.m_queue ++ [packet],
                    List.replicate (Encoder.build cfg.max_symbols packet.length).block_size
                      0)).2 }]) := by
      simp only [coding, Enqueue1, List.length_append, List.length_singleton, h, if_true,
        hdrain]
      rfl
    rw [hc]
    exact ⟨rfl, rfl, rfl, rfl, rfl, by simp [assign]⟩

/-- Witness for C3: at a node with generations of two packets, the first packet is only
queued, and the second closes generation 1. -/
theorem C3_coding_batches_witness :
    coding Config.sample State.init [1, 2] 9 2048
      = (true, { State.init with m_queue := State.init.m_queue ++ [[1, 2]] }, []) ∧
    (coding Config.sample (Enqueue1 State.init [7, 8]) [1, 2] 9 2048).2.1.decoded_flag
      ((Enqueue1 State.init [7, 8]).generation % 65536) = 0 :=
  ⟨(C3_coding_batches Config.sample State.init [1, 2] 9 2048 (by decide)).2.1 (by decide),
   ((C3_coding_batches Config.sample (Enqueue1 State.init [7, 8]) [1, 2] 9 2048
      (by decide)).2.2 (by decide)).elim fun _ h => h.2.2.2.2.2⟩

/-- C4: a `SendCode` tick for a generation record whose decoded flag is 0 transmits exactly
one frame, the record's header in front of one encoder output, to the recorded destination
under the recorded protocol number, and schedules exactly one further tick after `interval`
for the same generation record (its count `k` one higher, its encoder one `encode` further);
a tick for a record whose flag is 1 has no effect at all and leaves the state unchanged. -/
theorem C4_SendCode_tick (kodo : Kodo) (wire : Wire) (cfg : Config) (s : State)
    (m_coded : coded) :
    (s.decoded_flag m_coded.h1.GetGeneration = 0 →
      SendCode kodo wire cfg s m_coded
        = ({ s with sent_packet := s.sent_packet + 1 },
           [Effect.Send
              (wire.AddHeader m_coded.h1
                (fit (kodo.enc_payload_size (m_coded.m_encoder.set_symbols
                    m_coded.m_encoder_data))
                  (kodo.encode (m_coded.m_encoder.set_symbols m_coded.m_encoder_data))))
              m_coded.realTo m_coded.protocolNumber,
            Effect.Schedule cfg.interval
              { m_coded with
                k := m_coded.k + 1
                m_encoder :=
                  (m_coded.m_encoder.set_symbols m_coded.m_encoder_data).afterEncode }])) ∧
    (s.decoded_flag m_coded.h1.GetGeneration = 1 →
      SendCode kodo wire cfg s m_coded = (s, [])) := by
  constructor
  · intro h
    simp only [SendCode, h, if_true]
  · intro h
    simp [SendCode, h]

/-- Witness for C4: the record of generation 1 at a node with generations of two symbols of
two bytes. With the flag at 0 the tick sends the first symbol under the header and schedules
the next tick; with the flag at 1 it does nothing. -/
theorem C4_SendCode_tick_witness :
    SendCode Kodo.sample Wire.sample Config.sample State.init
        { t2 := 500, k := 0, m_encoder := Encoder.build 2 2, protocolNumber := 2048,
          h1 := { m_generation := 1, m_source := 1, code := 1 }, realTo := 9,
          m_encoder_data := [7, 8, 1, 2] }
      = ({ State.init with sent_packet := 1 },
         [Effect.Send [0, 1, 1, 1, 7, 8] 9 2048,
          Effect.Schedule 500
            { t2 := 500, k := 1,
              m_encoder := { symbols := 2, symbol_size := 2, m_data := [7, 8, 1, 2],
                             encoded := 1 },
              protocolNumber := 2048, h1 := { m_generation := 1, m_source := 1, code := 1 },
              realTo := 9, m_encoder_data := [7, 8, 1, 2] }]) ∧
    SendCode Kodo.sample Wire.sample Config.sample
        { State.init with decoded_flag := assign State.init.decoded_flag 1 1 }
        { t2 := 500, k := 0, m_encoder := Encoder.build 2 2, protocolNumber := 2048,
          h1 := { m_generation := 1, m_source := 1, code := 1 }, realTo := 9,
          m_encoder_data := [7, 8, 1, 2] }
      = ({ State.init with decoded_flag := assign State.init.decoded_flag 1 1 }, []) :=
  ⟨(C4_SendCode_tick Kodo.sample Wire.sample Config.sample State.init
      { t2 := 500, k := 0, m_encoder := Encoder.build 2 2, protocolNumber := 2048,
        h1 := { m_generation := 1, m_source := 1, code := 1 }, realTo := 9,
        m_encoder_data := [7, 8, 1, 2] }).1 (by decide),
   (C4_SendCode_tick Kodo.sample Wire.sample Config.sample
      { State.init with decoded_flag := assign State.init.decoded_flag 1 1 }
      { t2 := 500, k := 0, m_encoder := Encoder.build 2 2, protocolNumber := 2048,
        h1 := { m_generation := 1, m_source := 1, code := 1 }, realTo := 9,
        m_encoder_data := [7, 8, 1, 2] }).2 (by decide)⟩

end Protocol0

/-! ## Theorems: the receiver -/

namespace Protocol0

@[simp] theorem countFromSource_decoded_flag (s : State) (a b : Nat) :
    (countFromSource s a b).decoded_flag = s.decoded_flag := by
  unfold countFromSource; split <;> rfl

@[simp] theorem countFromSource_decoding (s : State) (a b : Nat) :
    (countFromSource s a b).decoding = s.decoding := by
  unfold countFromSource; split <;> rfl

@[simp] theorem countReceived_decoded_flag (s : State) (a b : Nat) :
    (countReceived s a b).decoded_flag = s.decoded_flag := by
  unfold countReceived; split <;> rfl

@[simp] theorem countReceived_decoding (s : State) (a b : Nat) :
    (countReceived s a b).decoding = s.decoding := by
  unfold countReceived; split <;> rfl

@[simp] theorem fetchDecoder_decoded_flag (kodo : Kodo) (cfg : Config) (s : State) (g : Nat) :
    (fetchDecoder kodo cfg s g).decoded_flag = s.decoded_flag := rfl

@[simp] theorem countRank_decoded_flag (cfg : Config) (s : State) (r a b : Nat) :
    (countRank cfg s r a b).decoded_flag = s.decoded_flag := rfl

@[simp] theorem countRank_decoding (cfg : Config) (s : State) (r a b : Nat) :
    (countRank cfg s r a b).decoding = s.decoding := rfl

/-- The decoder slot depends on the state through `decoding` only. -/
theorem slot_congr (cfg : Config) (s t : State) (g : Nat) (h : t.decoding = s.decoding) :
    slot cfg t g = slot cfg s g := by
  simp [slot, h]

@[simp] theorem arrived_decoded_flag (kodo : Kodo) (cfg : Config) (s : State)
    (h1 : CodeHeader) (sender : Nat) :
    (arrived kodo cfg s h1 sender).decoded_flag = s.decoded_flag := by
  simp [arrived]

@[simp] theorem afterDecode_decoded_flag (kodo : Kodo) (cfg : Config) (s : State)
    (h1 : CodeHeader) (packet : List Nat) (d : Decoder) (sender : Nat) :
    (afterDecode kodo cfg s h1 packet d sender).decoded_flag = s.decoded_flag := rfl

@[simp] theorem afterDecode_decoding (kodo : Kodo) (cfg : Config) (s : State)
    (h1 : CodeHeader) (packet : List Nat) (d : Decoder) (sender : Nat) :
    (afterDecode kodo cfg s h1 packet d sender).decoding
      = assign s.decoding h1.GetGeneration (some (d.decode packet)) := rfl

/-- A coded frame from another origin, at a node with coding on, reaches the decoder unless
the size assertion fails. -/
theorem DecodingReceive_coded (kodo : Kodo) (wire : Wire) (cfg : Config) (s : State)
    (packet1 : List Nat) (type sender : Nat) (htype : type ≠ 2054)
    (hsrc : cfg.address ≠ (wire.RemoveHeader packet1).1.GetSourceMAC) (hcode : cfg.code = 1) :
    DecodingReceive kodo wire cfg s packet1 type sender =
      if cfg.ns3_assert = true ∧ (wire.RemoveHeader packet1).2.length ≠
          kodo.dec_payload_size (slot cfg s (wire.RemoveHeader packet1).1.GetGeneration) then
        none
      else
        some (decodeAndDeliver kodo wire cfg
          (arrived kodo cfg s (wire.RemoveHeader packet1).1 sender)
          (wire.RemoveHeader packet1).1 (wire.RemoveHeader packet1).2
          (slot cfg s (wire.RemoveHeader packet1).1.GetGeneration) type sender) := by
  simp only [DecodingReceive, htype, hsrc, hcode, if_false, if_true]

/-- The delivery loop schedules nothing. -/
theorem scheduled_deliverLoop (cfg : Config) (block : List Nat) (type sender : Nat) :
    scheduled (deliverLoop cfg block type sender) = [] := by
  unfold deliverLoop
  induction List.range cfg.max_symbols with
  | nil => rfl
  | cons i is ih =>
    rw [List.flatMap_cons]
    show scheduled (is.flatMap _) = _
    exact ih

/-- The packets that the delivery loop hands upwards are the symbols of the block, in
increasing index. -/
theorem delivered_deliverLoop (cfg : Config) (block : List Nat) (type sender : Nat) :
    delivered (deliverLoop cfg block type sender)
      = (List.range cfg.max_symbols).map (symbolAt cfg block) := by
  unfold deliverLoop
  induction List.range cfg.max_symbols with
  | nil => rfl
  | cons i is ih =>
    rw [List.flatMap_cons]
    show symbolAt cfg block i :: delivered (is.flatMap _) = _
    rw [ih, List.map_cons]

/-- The delivery loop transmits nothing. -/
theorem sent_deliverLoop (cfg : Config) (block : List Nat) (type sender : Nat) :
    sent (deliverLoop cfg block type sender) = [] := by
  unfold deliverLoop
  induction List.range cfg.max_symbols with
  | nil => rfl
  | cons i is ih =>
    rw [List.flatMap_cons]
    show sent (is.flatMap _) = _
    exact ih

/-- The vector written by a library call has the size it was created with. -/
theorem fit_length (n : Nat) (l : List Nat) : (fit n l).length = n := by
  simp [fit]

/-- A symbol cut out of a block of `max_symbols * max_size` bytes has `max_size` bytes. -/
theorem symbolAt_length (cfg : Config) (block : List Nat) (i : Nat)
    (hblock : block.length = cfg.max_symbols * cfg.max_size) (hi : i < cfg.max_symbols) :
    (symbolAt cfg block i).length = cfg.max_size := by
  have h1 : (i + 1) * cfg.max_size ≤ cfg.max_symbols * cfg.max_size :=
    Nat.mul_le_mul_right _ hi
  have h2 : (i + 1) * cfg.max_size = i * cfg.max_size + cfg.max_size := by ring
  simp only [symbolAt, List.length_take, List.length_drop, hblock]
  omega

/-- The decoder used for a generation id was built with the configured parameters, if every
stored decoder was. -/
theorem slot_built (cfg : Config) (s : State) (g : Nat)
    (hbuilt : ∀ d, s.decoding g = some d →
      d.symbols = cfg.max_symbols ∧ d.symbol_size = cfg.max_size) :
    (slot cfg s g).symbols = cfg.max_symbols ∧ (slot cfg s g).symbol_size = cfg.max_size := by
  unfold slot
  cases h : s.decoding g with
  | none => exact ⟨rfl, rfl⟩
  | some d => exact hbuilt d h

/-- C5: a coded frame (header `h1`, payload `packet`) from another origin whose payload is
fed to the decoder of its generation id, leaving it complete while the decoded flag of that
id is 0: the handler returns true, the flag becomes 1, exactly `max_symbols` packets are
handed to the receive callback, each `max_size` bytes long, the `i`-th being bytes
`[i * max_size, (i + 1) * max_size)` of the decoder's reconstructed block, in increasing
`i`, and exactly one frame is transmitted: ten zero bytes under `h1` with the coding flag
cleared, to the immediate sender, under protocol number 100. The reconstructed block is
what `kodo::copy_symbols` writes for the decoder into a zeroed vector of
`max_symbols * max_size` bytes; when `copy_symbols` writes that many bytes, as kodo does, it
is the output of `copy_symbols` itself. -/
theorem C5_first_completion (kodo : Kodo) (wire : Wire) (cfg : Config) (s : State)
    (packet1 : List Nat) (type sender : Nat) (h1 : CodeHeader) (packet : List Nat)
    (hrm : wire.RemoveHeader packet1 = (h1, packet)) (htype : type ≠ 2054)
    (hsrc : h1.GetSourceMAC ≠ cfg.address) (hcode : cfg.code = 1)
    (hsize : cfg.ns3_assert = true →
      packet.length = kodo.dec_payload_size (slot cfg s h1.GetGeneration))
    (hbuilt : ∀ d, s.decoding h1.GetGeneration = some d →
      d.symbols = cfg.max_symbols ∧ d.symbol_size = cfg.max_size)
    (hcomplete : kodo.is_complete ((slot cfg s h1.GetGeneration).decode packet) = true)
    (hflag : s.decoded_flag h1.GetGeneration = 0) :
    ∃ (s1 : State) (effs : List Effect),
      DecodingReceive kodo wire cfg s packet1 type sender = some (true, s1, effs) ∧
      s1.decoded_flag h1.GetGeneration = 1 ∧
      s1.decoding h1.GetGeneration = some ((slot cfg s h1.GetGeneration).decode packet) ∧
      delivered effs = (List.range cfg.max_symbols).map (fun i =>
        (((kodo.copy_symbols ((slot cfg s h1.GetGeneration).decode packet) ++
            List.replicate (cfg.max_symbols * cfg.max_size) 0).take
              (cfg.max_symbols * cfg.max_size)).drop
          (i * cfg.max_size)).take cfg.max_size) ∧
      ((kodo.copy_symbols ((slot cfg s h1.GetGeneration).decode packet)).length
          = cfg.max_symbols * cfg.max_size →
        delivered effs = (List.range cfg.max_symbols).map (fun i =>
          ((kodo.copy_symbols ((slot cfg s h1.GetGeneration).decode packet)).drop
            (i * cfg.max_size)).take cfg.max_size)) ∧
      (delivered effs).length = cfg.max_symbols ∧
      (∀ p ∈ delivered effs, p.length = cfg.max_size) ∧
      sent effs = [(wire.AddHeader { h1 with code := 0 } (List.replicate 10 0), sender, 100)] ∧
      scheduled effs = [] := by
  have hsrc1 : cfg.address ≠ (wire.RemoveHeader packet1).1.GetSourceMAC := by
    rw [hrm]; exact fun h => hsrc h.symm
  have hsz : ¬ (cfg.ns3_assert = true ∧ packet.length ≠
      kodo.dec_payload_size (slot cfg s h1.GetGeneration)) := fun h => h.2 (hsize h.1)
  have hdel := delivered_deliverLoop cfg
    (data_out kodo ((slot cfg s h1.GetGeneration).decode packet)) type sender
  have hb := slot_built cfg s h1.GetGeneration hbuilt
  have hblock : (data_out kodo ((slot cfg s h1.GetGeneration).decode packet)).length
      = cfg.max_symbols * cfg.max_size := by
    simp [data_out, fit_length, Decoder.block_size, Decoder.decode, hb.1, hb.2]
  have hout : data_out kodo ((slot cfg s h1.GetGeneration).decode packet)
      = (kodo.copy_symbols ((slot cfg s h1.GetGeneration).decode packet) ++
          List.replicate (cfg.max_symbols * cfg.max_size) 0).take
            (cfg.max_symbols * cfg.max_size) := by
    simp [data_out, fit, Decoder.block_size, Decoder.decode, hb.1, hb.2]
  have hrun : DecodingReceive kodo wire cfg s packet1 type sender
      = some (true,
          { afterDecode kodo cfg (arrived kodo cfg s h1 sender) h1 packet
              (slot cfg s h1.GetGeneration) sender with
            decoded_flag := assign s.decoded_flag h1.GetGeneration 1
            countcode := (afterDecode kodo cfg (arrived kodo cfg s h1 sender) h1 packet
              (slot cfg s h1.GetGeneration) sender).countcode + 1 },
          Effect.Send (ACK wire h1) sender 100 ::
            deliverLoop cfg (data_out kodo ((slot cfg s h1.GetGeneration).decode packet))
              type sender) := by
    rw [DecodingReceive_coded kodo wire cfg s packet1 type sender htype hsrc1 hcode]
    simp only [hrm, hsz, if_false]
    simp only [decodeAndDeliver, hcomplete, afterDecode_decoded_flag, arrived_decoded_flag,
      hflag, and_self, if_true]
  refine ⟨_, _, hrun, ?_, ?_, ?_, ?_, ?_, ?_, ?_, ?_⟩
  · simp [assign]
  · simp [afterDecode, assign]
  · show delivered (deliverLoop cfg _ type sender) = _
    rw [hdel, hout]
    rfl
  · intro hlen
    have hfull : (kodo.copy_symbols ((slot cfg s h1.GetGeneration).decode packet) ++
        List.replicate (cfg.max_symbols * cfg.max_size) 0).take
          (cfg.max_symbols * cfg.max_size)
        = kodo.copy_symbols ((slot cfg s h1.GetGeneration).decode packet) := by
      rw [List.take_append_of_le_length (Nat.le_of_eq hlen.symm)]
      exact List.take_of_length_le (Nat.le_of_eq hlen)
    show delivered (deliverLoop cfg _ type sender) = _
    rw [hdel, hout, hfull]
    rfl
  · simp only [delivered, hdel, List.length_map, List.length_range]
  · intro p hp
    simp only [delivered, hdel, List.mem_map, List.mem_range] at hp
    obtain ⟨i, hi, rfl⟩ := hp
    exact symbolAt_length cfg _ i hblock hi
  · simp only [sent, sent_deliverLoop, ACK, CodeHeader.DisableCode]
  · simp only [scheduled, scheduled_deliverLoop]

/-- Witness for C5: at a node with generations of two symbols of two bytes, the decoder of
generation 1 holds the symbol `[7, 8]`; the frame with the symbol `[5, 6]` from origin 2,
heard from the relay 3, completes it. The packets `[7, 8]` and `[5, 6]` go up in this order
and one acknowledgement goes back to the relay. -/
theorem C5_first_completion_witness :
    ∃ (s1 : State) (effs : List Effect),
      DecodingReceive Kodo.sample Wire.sample Config.sample
          { State.init with
            decoding := assign State.init.decoding 1
              (some { symbols := 2, symbol_size := 2, fed := [[7, 8]] }) }
          [0, 1, 1, 2, 5, 6] 2048 3
        = some (true, s1, effs) ∧
      s1.decoded_flag 1 = 1 ∧ delivered effs = [[7, 8], [5, 6]] ∧
      sent effs = [([0, 1, 0, 2, 0, 0, 0, 0, 0, 0, 0, 0, 0, 0], 3, 100)] := by
  obtain ⟨s1, effs, h1, h2, _, _, h5, _, _, h8, _⟩ :=
    C5_first_completion Kodo.sample Wire.sample Config.sample
      { State.init with
        decoding := assign State.init.decoding 1
          (some { symbols := 2, symbol_size := 2, fed := [[7, 8]] }) }
      [0, 1, 1, 2, 5, 6] 2048 3 { m_generation := 1, m_source := 2, code := 1 } [5, 6] rfl
      (by decide) (by decide) rfl (fun _ => rfl)
      (by intro d h; cases h; exact ⟨rfl, rfl⟩) rfl rfl
  exact ⟨s1, effs, h1, h2, h5 rfl, h8⟩

/-- C8: a non-ARP frame whose header origin is this node's own address: the handler returns
true with no effect at all (nothing transmitted, nothing handed upwards, nothing scheduled);
the decoded flag of the frame's generation id is 1 afterwards, the flags of all other ids
and the whole decoder table are as before (no decoder is created or fed), and so are the
queue and the generation counter. -/
theorem C8_self_loopback (kodo : Kodo) (wire : Wire) (cfg : Config) (s : State)
    (packet1 : List Nat) (type sender : Nat) (h1 : CodeHeader) (packet : List Nat)
    (hrm : wire.RemoveHeader packet1 = (h1, packet)) (htype : type ≠ 2054)
    (hself : h1.GetSourceMAC = cfg.address) :
    ∃ s1 : State,
      DecodingReceive kodo wire cfg s packet1 type sender = some (true, s1, []) ∧
      s1.decoded_flag h1.GetGeneration = 1 ∧
      (∀ j, j ≠ h1.GetGeneration → s1.decoded_flag j = s.decoded_flag j) ∧
      s1.decoding = s.decoding ∧ s1.m_queue = s.m_queue ∧ s1.generation = s.generation := by
  refine ⟨{ countFromSource s sender h1.GetSourceMAC with
            decoded_flag := assign s.decoded_flag h1.GetGeneration 1 }, ?_, ?_, ?_, ?_, ?_, ?_⟩
  · simp only [DecodingReceive, htype, hrm, hself, if_false, if_true,
      countFromSource_decoded_flag]
  · simp [assign]
  · intro j hj
    simp [assign, hj]
  · simp
  · simp only [countFromSource]; split <;> rfl
  · simp only [countFromSource]; split <;> rfl

/-- Witness for C8: node 1 hears a frame of its own generation 7. -/
theorem C8_self_loopback_witness :
    ∃ s1 : State,
      DecodingReceive Kodo.sample Wire.sample Config.single State.init [0, 7, 1, 1, 77] 2048 2
        = some (true, s1, []) ∧
      s1.decoded_flag 7 = 1 ∧ s1.decoding = State.init.decoding := by
  obtain ⟨s1, h1, h2, _, h4, _, _⟩ :=
    C8_self_loopback Kodo.sample Wire.sample Config.single State.init [0, 7, 1, 1, 77] 2048 2
      { m_generation := 7, m_source := 1, code := 1 } [77] rfl (by decide) rfl
  exact ⟨s1, h1, h2, h4⟩

/-- Whenever the payload reaches the decoder the handler's status is true and the slot of
the frame's generation id holds the decoder with the payload fed. -/
theorem decodeAndDeliver_fed (kodo : Kodo) (wire : Wire) (cfg : Config) (s : State)
    (h1 : CodeHeader) (packet : List Nat) (d : Decoder) (type sender : Nat) :
    (decodeAndDeliver kodo wire cfg s h1 packet d type sender).1 = true ∧
    (decodeAndDeliver kodo wire cfg s h1 packet d type sender).2.1.decoding h1.GetGeneration
      = some (d.decode packet) := by
  simp only [decodeAndDeliver]
  split_ifs <;> simp [assign]

/-- C9 (evaluation of the code at the failing input): at node 1, with generations of two
symbols, a frame of generation 1 from origin 2 (payload `[7, 8]`) and then a frame of
generation 1 from origin 3 (payload `[5, 6]`) are fed to one and the same decoder, the one
stored under generation id 1: after the second frame it holds both payloads, it is
complete, and the block handed upwards is made of one symbol of each origin. -/
theorem C9_one_decoder_for_two_origins :
    ((Wire.sample.RemoveHeader [0, 1, 1, 2, 7, 8]).1.GetSourceMAC,
       (Wire.sample.RemoveHeader [0, 1, 1, 3, 5, 6]).1.GetSourceMAC) = (2, 3) ∧
    ((DecodingReceive Kodo.sample Wire.sample Config.sample State.init
        [0, 1, 1, 2, 7, 8] 2048 2).map fun r => (r.2.1.decoding 1, delivered r.2.2))
      = some (some { symbols := 2, symbol_size := 2, fed := [[7, 8]] }, []) ∧
    (((DecodingReceive Kodo.sample Wire.sample Config.sample State.init
        [0, 1, 1, 2, 7, 8] 2048 2).bind fun r =>
          DecodingReceive Kodo.sample Wire.sample Config.sample r.2.1
            [0, 1, 1, 3, 5, 6] 2048 3).map fun r => (r.2.1.decoding 1, delivered r.2.2))
      = some (some { symbols := 2, symbol_size := 2, fed := [[7, 8], [5, 6]] },
              [[7, 8], [5, 6]]) := by
  decide

/-- C10 (counterexample): a coded frame of generation 1 from origin 2 whose payload has two
bytes where the decoder expects one. With `NS_ASSERT` compiled in, the handler returns no
status: the program is terminated. With `NS_ASSERT` compiled out, the frame is not aborted:
the two bytes are fed to the decoder. -/
theorem C10_counterexample :
    (Wire.sample.RemoveHeader [0, 1, 1, 2, 77, 78]).2.length
      ≠ Kodo.sample.dec_payload_size (slot Config.single State.init 1) ∧
    (DecodingReceive Kodo.sample Wire.sample Config.single State.init
      [0, 1, 1, 2, 77, 78] 2048 2).isNone = true ∧
    ((DecodingReceive Kodo.sample Wire.sample { Config.single with ns3_assert := false }
        State.init [0, 1, 1, 2, 77, 78] 2048 2).map fun r => r.2.1.decoding 1)
      = some (some { symbols := 1, symbol_size := 1, fed := [[77, 78]] }) := by
  decide

/-- C10 (amended): for a coded frame (header `h1`, payload `packet`) from another origin,
the handler fails to return exactly when `NS_ASSERT` is compiled in and the size of the
payload differs from the payload size the decoder expects: the program is then terminated
at the assertion, before the payload is fed and before anything is delivered or sent.
Whenever the handler returns, its status is true and the payload has been fed to the
decoder of the frame's generation id, whatever its size. -/
theorem C10_size_mismatch_terminates (kodo : Kodo) (wire : Wire) (cfg : Config) (s : State)
    (packet1 : List Nat) (type sender : Nat) (h1 : CodeHeader) (packet : List Nat)
    (hrm : wire.RemoveHeader packet1 = (h1, packet)) (htype : type ≠ 2054)
    (hsrc : h1.GetSourceMAC ≠ cfg.address) (hcode : cfg.code = 1) :
    (DecodingReceive kodo wire cfg s packet1 type sender = none ↔
      (cfg.ns3_assert = true ∧
        packet.length ≠ kodo.dec_payload_size (slot cfg s h1.GetGeneration))) ∧
    (∀ r, DecodingReceive kodo wire cfg s packet1 type sender = some r →
      r.1 = true ∧
      r.2.1.decoding h1.GetGeneration = some ((slot cfg s h1.GetGeneration).decode packet)) := by
  have hsrc1 : cfg.address ≠ (wire.RemoveHeader packet1).1.GetSourceMAC := by
    rw [hrm]; exact fun h => hsrc h.symm
  rw [DecodingReceive_coded kodo wire cfg s packet1 type sender htype hsrc1 hcode]
  simp only [hrm]
  constructor
  · split_ifs with h
    · exact ⟨fun _ => h, fun _ => rfl⟩
    · exact ⟨fun h0 => h0.elim, fun h0 => absurd h0 h⟩
  · intro r hr
    split_ifs at hr with h
    cases hr
    exact decodeAndDeliver_fed kodo wire cfg _ h1 packet _ type sender

/-- Witness for C10 (amended): the two-byte payload of the counterexample, with `NS_ASSERT`
compiled in. -/
theorem C10_size_mismatch_terminates_witness :
    DecodingReceive Kodo.sample Wire.sample Config.single State.init
      [0, 1, 1, 2, 77, 78] 2048 2 = none :=
  (C10_size_mismatch_terminates Kodo.sample Wire.sample Config.single State.init
    [0, 1, 1, 2, 77, 78] 2048 2 { m_generation := 1, m_source := 2, code := 1 } [77, 78]
    rfl (by decide) (by decide) rfl).1.2 ⟨rfl, by decide⟩

/-! ## Theorems: runs -/

/-- Feeding a payload: packets go upwards only if the flag of the frame's generation id was
0, and it is 1 afterwards; a flag that is not 0 never becomes 0. -/
theorem decodeAndDeliver_flags (kodo : Kodo) (wire : Wire) (cfg : Config) (s : State)
    (h1 : CodeHeader) (packet : List Nat) (d : Decoder) (type sender : Nat) :
    (delivered (decodeAndDeliver kodo wire cfg s h1 packet d type sender).2.2 ≠ [] →
      s.decoded_flag h1.GetGeneration = 0 ∧
      (decodeAndDeliver kodo wire cfg s h1 packet d type sender).2.1.decoded_flag
        h1.GetGeneration = 1) ∧
    (∀ j, s.decoded_flag j ≠ 0 →
      (decodeAndDeliver kodo wire cfg s h1 packet d type sender).2.1.decoded_flag j ≠ 0) := by
  simp only [decodeAndDeliver, afterDecode_decoded_flag]
  split_ifs with h2 h3
  · refine ⟨fun _ => ⟨h2.2, by simp [assign]⟩, fun j hj => ?_⟩
    by_cases hjg : j = h1.GetGeneration
    · simp [assign, hjg]
    · simpa [assign, hjg] using hj
  · exact ⟨fun h => absurd rfl h, fun j hj => hj⟩
  · exact ⟨fun h => absurd rfl h, fun j hj => hj⟩

/-- One `DecodingReceive` of a non-ARP frame: packets go upwards only if the flag of the
frame's generation id was 0, and it is 1 afterwards; a flag that is not 0 never becomes
0. -/
theorem DecodingReceive_flags (kodo : Kodo) (wire : Wire) (cfg : Config) (s : State)
    (packet1 : List Nat) (type sender : Nat) (r : Bool × State × List Effect)
    (htype : type ≠ 2054) (hr : DecodingReceive kodo wire cfg s packet1 type sender = some r) :
    (delivered r.2.2 ≠ [] →
      s.decoded_flag (wire.RemoveHeader packet1).1.GetGeneration = 0 ∧
      r.2.1.decoded_flag (wire.RemoveHeader packet1).1.GetGeneration = 1) ∧
    (∀ j, s.decoded_flag j ≠ 0 → r.2.1.decoded_flag j ≠ 0) := by
  simp only [DecodingReceive, htype, if_false] at hr
  split_ifs at hr with h1 h2 h3
  · cases hr
    refine ⟨fun h => absurd rfl h, fun j hj => ?_⟩
    by_cases hjg : j = (wire.RemoveHeader packet1).1.GetGeneration
    · simp [assign, hjg]
    · simpa [assign, hjg] using hj
  · cases hr
    have h := decodeAndDeliver_flags kodo wire cfg
      (arrived kodo cfg s (wire.RemoveHeader packet1).1 sender) (wire.RemoveHeader packet1).1
      (wire.RemoveHeader packet1).2
      (slot cfg s (wire.RemoveHeader packet1).1.GetGeneration) type sender
    simpa using h
  · cases hr
    exact ⟨fun h => absurd rfl h, fun j hj => by simpa using hj⟩

/-- `coding` changes the flag of the id of the generation it creates, and no other. -/
theorem coding_flags (cfg : Config) (s : State) (packet : List Nat) (dest protocolNumber : Nat)
    (j : Nat)
    (hj : (scheduled (coding cfg s packet dest protocolNumber).2.2).any
      (fun c => decide (c.2.h1.GetGeneration = j)) = false) :
    (coding cfg s packet dest protocolNumber).2.1.decoded_flag j = s.decoded_flag j := by
  simp only [coding] at hj ⊢
  split_ifs at hj ⊢ with h
  · simp only [scheduled, List.any_cons, List.any_nil, Bool.or_false,
      decide_eq_false_iff_not] at hj
    simp only [assign, Enqueue1]
    rw [if_neg (fun h0 => hj h0.symm)]
  · rfl

/-- A step of a run that creates no generation with id `g` keeps a nonzero flag of `g`
nonzero. -/
theorem step_keeps_flag (kodo : Kodo) (wire : Wire) (cfg : Config) (s : State) (ev : Event)
    (r : State × List Effect) (g : Nat) (hr : step kodo wire cfg s ev = some r)
    (hflag : s.decoded_flag g ≠ 0) (hno : createsGeneration g (ev, r.2) = false) :
    r.1.decoded_flag g ≠ 0 := by
  cases ev with
  | Send packet dest protocolNumber w =>
    simp only [step, Option.some.injEq] at hr
    subst hr
    simp only [createsGeneration, Send] at hno ⊢
    split_ifs at hno ⊢ with h
    · rw [coding_flags cfg s packet dest protocolNumber g hno]
      exact hflag
    · exact hflag
  | DecodingReceive packet1 type sender =>
    simp only [step, Option.map_eq_some'] at hr
    obtain ⟨r0, hr0, rfl⟩ := hr
    by_cases htype : type = 2054
    · simp only [DecodingReceive, htype, if_true, Option.some.injEq] at hr0
      subst hr0
      exact hflag
    · exact (DecodingReceive_flags kodo wire cfg s packet1 type sender r0 htype hr0).2 g hflag
  | SendCode m_coded =>
    simp only [step, Option.some.injEq] at hr
    subst hr
    simp only [SendCode]
    split_ifs <;> exact hflag

/-- A step that hands packets of generation id `g` upwards starts with the flag of `g` at 0
and leaves it at 1. -/
theorem step_delivers (kodo : Kodo) (wire : Wire) (cfg : Config) (s : State) (ev : Event)
    (r : State × List Effect) (g : Nat) (hr : step kodo wire cfg s ev = some r)
    (hd : deliversGeneration wire g (ev, r.2) = true) :
    s.decoded_flag g = 0 ∧ r.1.decoded_flag g = 1 := by
  cases ev with
  | Send packet dest protocolNumber w => simp [deliversGeneration] at hd
  | SendCode m_coded => simp [deliversGeneration] at hd
  | DecodingReceive packet1 type sender =>
    simp only [step, Option.map_eq_some'] at hr
    obtain ⟨r0, hr0, rfl⟩ := hr
    simp only [deliversGeneration, Bool.and_eq_true, decide_eq_true_eq, Bool.not_eq_true']
      at hd
    obtain ⟨⟨htype, hg⟩, hne⟩ := hd
    have hne1 : delivered r0.2.2 ≠ [] := by
      intro h0
      rw [h0] at hne
      exact absurd hne (by decide)
    have h := (DecodingReceive_flags kodo wire cfg s packet1 type sender r0 htype hr0).1 hne1
    rw [hg] at h
    exact h

/-- From a state in which the flag of `g` is not 0, a run in which no generation with id
`g` is created hands no packet of `g` upwards. -/
theorem run_no_delivery (kodo : Kodo) (wire : Wire) (cfg : Config) (g : Nat)
    (evs : List Event) (s : State) (hflag : s.decoded_flag g ≠ 0)
    (hno : ∀ e ∈ run kodo wire cfg s evs, createsGeneration g e = false) :
    (run kodo wire cfg s evs).filter (deliversGeneration wire g) = [] := by
  induction evs generalizing s with
  | nil => rfl
  | cons ev evs ih =>
    simp only [run] at hno ⊢
    cases hstep : step kodo wire cfg s ev with
    | none => rfl
    | some r =>
      simp only [hstep, List.mem_cons, forall_eq_or_imp] at hno ⊢
      have hnd : deliversGeneration wire g (ev, r.2) = false := by
        cases hd : deliversGeneration wire g (ev, r.2) with
        | false => rfl
        | true => exact absurd (step_delivers kodo wire cfg s ev r g hstep hd).1 hflag
      rw [List.filter_cons_of_neg (by simp [hnd])]
      exact ih r.1 (step_keeps_flag kodo wire cfg s ev r g hstep hflag hno.1) hno.2

/-- At most one step of a run hands packets of generation id `g` upwards, when no
generation with id `g` is created after such a step; from any state. -/
theorem run_at_most_once (kodo : Kodo) (wire : Wire) (cfg : Config) (g : Nat)
    (evs : List Event) (s : State)
    (hno : ∀ pre e post, run kodo wire cfg s evs = pre ++ e :: post →
      deliversGeneration wire g e = true → ∀ e1 ∈ post, createsGeneration g e1 = false) :
    ((run kodo wire cfg s evs).filter (deliversGeneration wire g)).length ≤ 1 := by
  induction evs generalizing s with
  | nil => simp [run]
  | cons ev evs ih =>
    simp only [run] at hno ⊢
    cases hstep : step kodo wire cfg s ev with
    | none => simp
    | some r =>
      simp only [hstep] at hno ⊢
      cases hd : deliversGeneration wire g (ev, r.2) with
      | true =>
        have hrest := run_no_delivery kodo wire cfg g evs r.1
          (by rw [(step_delivers kodo wire cfg s ev r g hstep hd).2]; decide)
          (hno [] (ev, r.2) _ rfl hd)
        rw [List.filter_cons_of_pos (by simp [hd]), hrest]
        simp
      | false =>
        rw [List.filter_cons_of_neg (by simp [hd])]
        exact ih r.1 fun pre e post hsplit he =>
          hno ((ev, r.2) :: pre) e post (by rw [hsplit]; rfl) he

/-- C7 (counterexample): node 1, with generations of one symbol, starts from the
constructor's state. A frame of generation 1 from origin 2 completes the decoder and its
packet is handed upwards; the node then sends one packet of its own, which closes its own
generation 1 and puts the decoded flag of id 1 back to 0; the same frame arriving again is
handed upwards a second time. -/
theorem C7_counterexample :
    ((run Kodo.sample Wire.sample Config.single State.init
        [Event.DecodingReceive [0, 1, 1, 2, 77] 2048 2,
         Event.Send [5] 2 2048 true,
         Event.DecodingReceive [0, 1, 1, 2, 77] 2048 2]).filter
      (deliversGeneration Wire.sample 1)).length = 2 := by
  decide

/-- C7 (amended): starting from the constructor's state, over every finite sequence of
`Send`, `DecodingReceive` and `SendCode` events, at most one step hands packets of a given
generation id `g` upwards, provided that after such a step the node does not itself create
a generation with id `g` (a `Send` that closes a batch under the id `g`). -/
theorem C7_at_most_once_delivery (kodo : Kodo) (wire : Wire) (cfg : Config) (g : Nat)
    (evs : List Event)
    (hno : ∀ pre e post, run kodo wire cfg State.init evs = pre ++ e :: post →
      deliversGeneration wire g e = true → ∀ e1 ∈ post, createsGeneration g e1 = false) :
    ((run kodo wire cfg State.init evs).filter (deliversGeneration wire g)).length ≤ 1 :=
  run_at_most_once kodo wire cfg g evs State.init hno

/-- Witness for C7 (amended): the frame of the counterexample arriving twice, followed by an
ARP packet sent by the node. -/
theorem C7_at_most_once_delivery_witness :
    ((run Kodo.sample Wire.sample Config.single State.init
        [Event.DecodingReceive [0, 1, 1, 2, 77] 2048 2,
         Event.DecodingReceive [0, 1, 1, 2, 77] 2048 2,
         Event.Send [5] 2 2054 true]).filter
      (deliversGeneration Wire.sample 1)).length ≤ 1 :=
  C7_at_most_once_delivery Kodo.sample Wire.sample Config.single 1
    [Event.DecodingReceive [0, 1, 1, 2, 77] 2048 2,
     Event.DecodingReceive [0, 1, 1, 2, 77] 2048 2,
     Event.Send [5] 2 2054 true]
    (fun pre e post h _ e1 he1 =>
      (by decide : ∀ e0 ∈ run Kodo.sample Wire.sample Config.single State.init
          [Event.DecodingReceive [0, 1, 1, 2, 77] 2048 2,
           Event.DecodingReceive [0, 1, 1, 2, 77] 2048 2,
           Event.Send [5] 2 2054 true], createsGeneration 1 e0 = false)
        e1 (by rw [h]; simp [he1]))

end Protocol0

/-! ## Theorems: the relay -/

namespace Protocol0

/-- C11 (counterexample): an ARP packet is handed straight to `WifiNetDevice::Send`; when
that call reports failure, `PepWifiNetDevice::Send` still reports success. -/
theorem C11_counterexample :
    (Send Config.single State.init [5] 2 2054 false).2.2 = [Effect.Send [5] 2 2054] ∧
    (Send Config.single State.init [5] 2 2054 false).1 = true := by
  decide

/-- C11 (amended): `PepWifiNetDevice::Send` reports success for every packet, destination
and protocol number, whatever `WifiNetDevice::Send` reports: its result, state and effects
do not depend on that report. -/
theorem C11_Send_always_true (cfg : Config) (s : State) (packet : List Nat)
    (dest protocolNumber : Nat) (wifiSendResult : Bool) :
    (Send cfg s packet dest protocolNumber wifiSendResult).1 = true ∧
    Send cfg s packet dest protocolNumber wifiSendResult
      = Send cfg s packet dest protocolNumber true := by
  unfold Send
  split_ifs <;> exact ⟨rfl, rfl⟩

@[simp] theorem countRelay_arrayMac (cfg : Config) (s : Relay) :
    (countRelay cfg s).arrayMac = s.arrayMac := by
  unfold countRelay; split <;> rfl

@[simp] theorem countRelay_seed (cfg : Config) (s : Relay) :
    (countRelay cfg s).seed = s.seed := by
  unfold countRelay; split <;> rfl

/-- The effects of the end of `promisc`: one frame when the draw exceeds `relay_activity`,
none otherwise; the status is true. -/
theorem relay_effects (cfg : Config) (s : Relay) (d : Nat) (pkt : List Nat) (dest type : Nat) :
    (relay cfg s d pkt dest type).1 = true ∧
    (cfg.relay_activity < d → (relay cfg s d pkt dest type).2.2 = [Effect.Send pkt dest type]) ∧
    (d ≤ cfg.relay_activity → (relay cfg s d pkt dest type).2.2 = []) := by
  unfold relay
  split_ifs with h
  · exact ⟨rfl, fun _ => rfl, fun h1 => absurd h (by omega)⟩
  · exact ⟨rfl, fun h1 => absurd h1 h, fun _ => rfl⟩

/-- The draw lies between 1 and 100. -/
theorem draw_range (r : Nat) : 1 ≤ draw r ∧ draw r ≤ 100 := by
  unfold draw
  have := Nat.mod_lt r (by decide : 100 > 0)
  omega

/-- The slot search changes neither `seed` nor the counters of `promisc`. -/
theorem resolve_seed (s : Relay) (seq source : Nat) (r : Relay × Nat)
    (h : resolve s seq source = some r) : r.1.seed = s.seed := by
  unfold resolve at h
  split at h
  · cases h; rfl
  · cases h
    simp only [numberSlot]
    split <;> rfl
  · cases h

/-- C12: a frame overheard by `promisc` that is addressed to this node (packet type other
than `PACKET_OTHERHOST`), or is an ARP frame (protocol 2054), or carries coding flag 0, or
whose header origin is this node's own address: the handler returns true, transmits
nothing and leaves the relay state (identity table, numbering, relay decoders, seed,
counters) as it was, whatever `relay_activity` and `recode` are. -/
theorem C12_not_relayed (kodo : Kodo) (wire : Wire) (cfg : Config) (rand : Nat → Nat)
    (s : Relay) (packet1 : List Nat) (type sender dest : Nat) (typ : PacketType)
    (h : typ ≠ PacketType.PACKET_OTHERHOST ∨ type = 2054 ∨
      (wire.RemoveHeader packet1).1.GetCode = 0 ∨
      (wire.RemoveHeader packet1).1.GetSourceMAC = cfg.address) :
    promisc kodo wire cfg rand s packet1 type sender dest typ = some (true, s, []) := by
  have h1 : notRelayed cfg (wire.RemoveHeader packet1).1 type typ := h
  simp only [promisc, h1, if_true]

/-- Witness for C12: node 1, recoding on and `relay_activity = 0`, overhears a frame whose
origin is node 1. -/
theorem C12_not_relayed_witness :
    promisc Kodo.sample Wire.sample { Config.sample with relay_activity := 0 } (fun _ => 0)
        (Relay.init 3) [0, 1, 1, 1, 7, 8] 2048 5 9 PacketType.PACKET_OTHERHOST
      = some (true, Relay.init 3, []) :=
  C12_not_relayed Kodo.sample Wire.sample { Config.sample with relay_activity := 0 }
    (fun _ => 0) (Relay.init 3) [0, 1, 1, 1, 7, 8] 2048 5 9 PacketType.PACKET_OTHERHOST
    (Or.inr (Or.inr (Or.inr rfl)))

/-- The slot search returns a decoder number when it stays inside the identity table. -/
theorem resolve_some (s : Relay) (seq source : Nat)
    (h : ∀ i, findSlot source s.arrayMac 0 ≠ Slot.outOfBounds i) :
    ∃ r, resolve s seq source = some r := by
  unfold resolve
  cases hf : findSlot source s.arrayMac 0 with
  | free i => exact ⟨_, rfl⟩
  | known i => exact ⟨_, rfl⟩
  | outOfBounds i => exact absurd hf (h i)

/-- What `recodeWith` changes: the relay decoders only. -/
theorem recodeWith_some (kodo : Kodo) (cfg : Config) (s : Relay) (packet : List Nat) (n : Nat)
    (r : Relay × List Nat) (h : recodeWith kodo cfg s packet n = some r) :
    r.1.seed = s.seed ∧ r.1.arrayMac = s.arrayMac ∧ r.1.array = s.array ∧
      r.1.recodedNum = s.recodedNum := by
  unfold recodeWith at h
  split_ifs at h
  cases h
  exact ⟨rfl, rfl, rfl, rfl⟩

/-- The rule of `promisc` away from the two unchecked bounds of `rencoding`: for an eligible
overheard frame (packet type `PACKET_OTHERHOST`, not ARP, coding flag not 0, origin not this
node), every `rand` and both settings of `recode` (with recoding on, for a frame whose slot
search stays inside the identity table and whose payload fits into `buffer1`): the draw
`rand () % 100 + 1`, taken after `srand (seed)` with recoding on and after
`srand (generation id)` with recoding off, lies in `[1, 100]`; the handler returns true and
transmits exactly one frame, to `to` under the frame's protocol number, when the draw is
greater than `relay_activity`, and no frame otherwise. -/
theorem promisc_thresholds (kodo : Kodo) (wire : Wire) (cfg : Config) (rand : Nat → Nat)
    (s : Relay) (packet1 : List Nat) (type sender dest : Nat) (typ : PacketType)
    (htyp : typ = PacketType.PACKET_OTHERHOST) (htype : type ≠ 2054)
    (hcode : (wire.RemoveHeader packet1).1.GetCode ≠ 0)
    (hsrc : (wire.RemoveHeader packet1).1.GetSourceMAC ≠ cfg.address)
    (hroom : cfg.recode = 1 → ∀ i,
      findSlot (wire.RemoveHeader packet1).1.GetSourceMAC s.arrayMac 0 ≠ Slot.outOfBounds i)
    (hbuf : cfg.recode = 1 → (wire.RemoveHeader packet1).2.length ≤ buffer1_size) :
    1 ≤ draw (rand (if cfg.recode = 1 then s.seed % 4294967296
        else (wire.RemoveHeader packet1).1.GetGeneration)) ∧
    draw (rand (if cfg.recode = 1 then s.seed % 4294967296
        else (wire.RemoveHeader packet1).1.GetGeneration)) ≤ 100 ∧
    ∃ (s1 : Relay) (effs : List Effect),
      promisc kodo wire cfg rand s packet1 type sender dest typ = some (true, s1, effs) ∧
      (cfg.relay_activity < draw (rand (if cfg.recode = 1 then s.seed % 4294967296
          else (wire.RemoveHeader packet1).1.GetGeneration)) →
        ∃ pkt, effs = [Effect.Send pkt dest type]) ∧
      (draw (rand (if cfg.recode = 1 then s.seed % 4294967296
          else (wire.RemoveHeader packet1).1.GetGeneration)) ≤ cfg.relay_activity →
        effs = []) ∧
      (cfg.relay_activity = 100 → effs = []) ∧
      (cfg.relay_activity = 0 → ∃ pkt, effs = [Effect.Send pkt dest type]) := by
  have hnr : ¬ notRelayed cfg (wire.RemoveHeader packet1).1 type typ := by
    unfold notRelayed
    rintro (h | h | h | h)
    · exact h htyp
    · exact htype h
    · exact hcode h
    · exact hsrc h
  have hd := draw_range (rand (if cfg.recode = 1 then s.seed % 4294967296
        else (wire.RemoveHeader packet1).1.GetGeneration))
  refine ⟨hd.1, hd.2, ?_⟩
  by_cases hre : cfg.recode = 1
  · obtain ⟨r, hr⟩ := resolve_some (countRelay cfg s)
      (wire.RemoveHeader packet1).1.GetGeneration (wire.RemoveHeader packet1).1.GetSourceMAC
      (by simpa using hroom hre)
    obtain ⟨r1, hrw⟩ : ∃ r1, recodeWith kodo cfg r.1 (wire.RemoveHeader packet1).2 r.2
        = some r1 := by
      simp only [recodeWith, hbuf hre, if_true]
      exact ⟨_, rfl⟩
    have hseed : r1.1.seed = s.seed := by
      have h1 := (recodeWith_some kodo cfg r.1 _ r.2 r1 hrw).1
      have h2 := resolve_seed _ _ _ r hr
      rw [h1, h2]
      simp
    simp only [hre, if_true] at hd ⊢
    have hp : promisc kodo wire cfg rand s packet1 type sender dest typ
        = some (relay cfg r1.1 (draw (rand (s.seed % 4294967296)))
            (wire.AddHeader (wire.RemoveHeader packet1).1 r1.2) dest type) := by
      simp only [promisc, hnr, if_false, hre, if_true, rencoding, hr, hrw, hseed]
    have he := relay_effects cfg r1.1 (draw (rand (s.seed % 4294967296)))
      (wire.AddHeader (wire.RemoveHeader packet1).1 r1.2) dest type
    refine ⟨_, _, by rw [hp, ← he.1], fun h => ⟨_, he.2.1 h⟩, he.2.2, ?_, ?_⟩
    · intro h100
      exact he.2.2 (by omega)
    · intro h0
      exact ⟨_, he.2.1 (by omega)⟩
  · simp only [hre, if_false] at hd ⊢
    have hp : promisc kodo wire cfg rand s packet1 type sender dest typ
        = some (relay cfg (countRelay cfg s)
            (draw (rand (wire.RemoveHeader packet1).1.GetGeneration))
            (wire.AddHeader (wire.RemoveHeader packet1).1 (wire.RemoveHeader packet1).2)
            dest type) := by
      simp only [promisc, hnr, if_false, hre]
    have he := relay_effects cfg (countRelay cfg s)
      (draw (rand (wire.RemoveHeader packet1).1.GetGeneration))
      (wire.AddHeader (wire.RemoveHeader packet1).1 (wire.RemoveHeader packet1).2) dest type
    refine ⟨_, _, by rw [hp, ← he.1], fun h => ⟨_, he.2.1 h⟩, he.2.2, ?_, ?_⟩
    · intro h100
      exact he.2.2 (by omega)
    · intro h0
      exact ⟨_, he.2.1 (by omega)⟩

/-- C14 (evaluation of the code at the failing input): from the constructor's relay state,
two frames with the same key (generation 1, origin 2) are resolved to the decoder numbers 0
and 1: the first number handed out is 0, which `array[seq][i]==0` takes for "no number
yet". Two relay decoders exist afterwards for the one key, each fed one of the frames. -/
theorem C14_two_decoders_for_one_key :
    relayRun Kodo.sample Config.sample (Relay.init 3) [([7, 8], 1, 2), ([5, 6], 1, 2)]
      = [((1, 2), 0), ((1, 2), 1)] ∧
    (((rencoding Kodo.sample Config.sample (Relay.init 3) [7, 8] 1 2).bind fun r =>
        rencoding Kodo.sample Config.sample r.1 [5, 6] 1 2).map fun r =>
          (r.1.forward 0, r.1.forward 1))
      = some (some { symbols := 2, symbol_size := 2, fed := [[7, 8]] },
              some { symbols := 2, symbol_size := 2, fed := [[5, 6]] }) := by
  decide

/-- On a table of any capacity whose slots all hold origins other than the one searched
for, the slot search ends by evaluating `arrayMac[i]` at the capacity of the table. -/
theorem findSlot_full (source : Nat) (l : List Nat) (k : Nat)
    (h : ∀ m ∈ l, m ≠ 0 ∧ m ≠ source) :
    findSlot source l k = Slot.outOfBounds (k + l.length) := by
  induction l generalizing k with
  | nil => rfl
  | cons m rest ih =>
    have hm := h m (List.mem_cons_self _ _)
    simp only [findSlot, hm.1, hm.2, if_false, ne_eq, not_false_eq_true, if_true,
      List.length_cons]
    rw [ih (k + 1) (fun x hx => h x (List.mem_cons_of_mem _ hx))]
    congr 1
    omega

/-- C16 (evaluation of the code at the failing input): with recoding on and an identity
table of capacity 3 whose slots hold the origins 2, 3 and 4, an eligible frame from origin
5 makes the slot search evaluate `arrayMac[3]`, an index equal to the capacity; the frame
is neither forwarded nor dropped by the handler. -/
theorem C16_search_leaves_table :
    ({ Relay.init 3 with arrayMac := [2, 3, 4] } : Relay).arrayMac.length = 3 ∧
    findSlot 5 ({ Relay.init 3 with arrayMac := [2, 3, 4] } : Relay).arrayMac 0
      = Slot.outOfBounds 3 ∧
    (promisc Kodo.sample Wire.sample Config.sample (fun _ => 0)
      { Relay.init 3 with arrayMac := [2, 3, 4] } [0, 1, 1, 5, 7, 8] 2048 5 9
      PacketType.PACKET_OTHERHOST).isNone = true := by
  decide

/-- C19: with recoding off, for two eligible overheard frames with the same generation id,
at two relays with the same `relay_activity`, in any two relay states: both handlers return
true, and either both transmit exactly one frame or both transmit none, whatever the
payloads, the origins, the seed counters and the relays' addresses are. `rand x` is what
`rand ()` returns after `srand (x)`. -/
theorem C19_forward_decision (kodo : Kodo) (wire : Wire) (cfg1 cfg2 : Config)
    (rand : Nat → Nat) (s1 s2 : Relay) (p1 p2 : List Nat) (type1 type2 : Nat)
    (sender1 sender2 dest1 dest2 : Nat)
    (hre1 : cfg1.recode ≠ 1) (hre2 : cfg2.recode ≠ 1)
    (hra : cfg1.relay_activity = cfg2.relay_activity)
    (hgen : (wire.RemoveHeader p1).1.GetGeneration = (wire.RemoveHeader p2).1.GetGeneration)
    (htype1 : type1 ≠ 2054) (htype2 : type2 ≠ 2054)
    (hcode1 : (wire.RemoveHeader p1).1.GetCode ≠ 0)
    (hcode2 : (wire.RemoveHeader p2).1.GetCode ≠ 0)
    (hsrc1 : (wire.RemoveHeader p1).1.GetSourceMAC ≠ cfg1.address)
    (hsrc2 : (wire.RemoveHeader p2).1.GetSourceMAC ≠ cfg2.address) :
    ∃ (t1 t2 : Relay) (e1 e2 : List Effect),
      promisc kodo wire cfg1 rand s1 p1 type1 sender1 dest1 PacketType.PACKET_OTHERHOST
        = some (true, t1, e1) ∧
      promisc kodo wire cfg2 rand s2 p2 type2 sender2 dest2 PacketType.PACKET_OTHERHOST
        = some (true, t2, e2) ∧
      ((e1 = [Effect.Send (wire.AddHeader (wire.RemoveHeader p1).1 (wire.RemoveHeader p1).2)
                dest1 type1] ∧
        e2 = [Effect.Send (wire.AddHeader (wire.RemoveHeader p2).1 (wire.RemoveHeader p2).2)
                dest2 type2]) ∨
       (e1 = [] ∧ e2 = [])) := by
  have hnr1 : ¬ notRelayed cfg1 (wire.RemoveHeader p1).1 type1 PacketType.PACKET_OTHERHOST := by
    unfold notRelayed
    rintro (h | h | h | h)
    · exact h rfl
    · exact htype1 h
    · exact hcode1 h
    · exact hsrc1 h
  have hnr2 : ¬ notRelayed cfg2 (wire.RemoveHeader p2).1 type2 PacketType.PACKET_OTHERHOST := by
    unfold notRelayed
    rintro (h | h | h | h)
    · exact h rfl
    · exact htype2 h
    · exact hcode2 h
    · exact hsrc2 h
  have he1 := relay_effects cfg1 (countRelay cfg1 s1)
    (draw (rand (wire.RemoveHeader p1).1.GetGeneration))
    (wire.AddHeader (wire.RemoveHeader p1).1 (wire.RemoveHeader p1).2) dest1 type1
  have he2 := relay_effects cfg2 (countRelay cfg2 s2)
    (draw (rand (wire.RemoveHeader p1).1.GetGeneration))
    (wire.AddHeader (wire.RemoveHeader p2).1 (wire.RemoveHeader p2).2) dest2 type2
  have hp1 : promisc kodo wire cfg1 rand s1 p1 type1 sender1 dest1 PacketType.PACKET_OTHERHOST
      = some (relay cfg1 (countRelay cfg1 s1)
          (draw (rand (wire.RemoveHeader p1).1.GetGeneration))
          (wire.AddHeader (wire.RemoveHeader p1).1 (wire.RemoveHeader p1).2) dest1 type1) := by
    simp only [promisc, hnr1, if_false, hre1]
  have hp2 : promisc kodo wire cfg2 rand s2 p2 type2 sender2 dest2 PacketType.PACKET_OTHERHOST
      = some (relay cfg2 (countRelay cfg2 s2)
          (draw (rand (wire.RemoveHeader p1).1.GetGeneration))
          (wire.AddHeader (wire.RemoveHeader p2).1 (wire.RemoveHeader p2).2) dest2 type2) := by
    simp only [promisc, hnr2, if_false, hre2, ← hgen]
  refine ⟨_, _, _, _, by rw [hp1, ← he1.1], by rw [hp2, ← he2.1], ?_⟩
  · by_cases hd : cfg1.relay_activity < draw (rand (wire.RemoveHeader p1).1.GetGeneration)
    · exact Or.inl ⟨he1.2.1 hd, he2.2.1 (hra ▸ hd)⟩
    · exact Or.inr ⟨he1.2.2 (by omega), he2.2.2 (by omega)⟩

/-- Witness for C19: two relays with `relay_activity = 50` and recoding off, different
addresses, payloads, origins and seeds, overhear frames of generation 1. -/
theorem C19_forward_decision_witness :
    ∃ (t1 t2 : Relay) (e1 e2 : List Effect),
      promisc Kodo.sample Wire.sample
          { Config.sample with recode := 0, relay_activity := 50 } (fun x => 7 * x)
          (Relay.init 3) [0, 1, 1, 5, 7, 8] 2048 5 9 PacketType.PACKET_OTHERHOST
        = some (true, t1, e1) ∧
      promisc Kodo.sample Wire.sample
          { Config.init 4 with recode := 0, relay_activity := 50 } (fun x => 7 * x)
          { Relay.init 3 with seed := 7 } [0, 1, 1, 6, 3] 2048 6 8 PacketType.PACKET_OTHERHOST
        = some (true, t2, e2) ∧
      ((e1 = [Effect.Send [0, 1, 1, 5, 7, 8] 9 2048] ∧ e2 = [Effect.Send [0, 1, 1, 6, 3] 8 2048])
        ∨ (e1 = [] ∧ e2 = [])) :=
  C19_forward_decision Kodo.sample Wire.sample
    { Config.sample with recode := 0, relay_activity := 50 }
    { Config.init 4 with recode := 0, relay_activity := 50 } (fun x => 7 * x)
    (Relay.init 3) { Relay.init 3 with seed := 7 } [0, 1, 1, 5, 7, 8] [0, 1, 1, 6, 3]
    2048 2048 5 6 9 8 (by decide) (by decide) rfl rfl (by decide) (by decide) (by decide)
    (by decide) (by decide) (by decide)

end Protocol0

/-! ## Theorems: the layout of a batch -/

namespace Protocol0

/-- Packets of `size` bytes each fill `size` bytes per packet. -/
theorem flatten_length_uniform (size : Nat) (q : List (List Nat))
    (hq : ∀ p ∈ q, p.length = size) : q.flatten.length = q.length * size := by
  induction q with
  | nil => simp
  | cons p rest ih =>
    have hp : p.length = size := hq p (List.mem_cons_self _ _)
    have hrest : ∀ x ∈ rest, x.length = size := fun x hx => hq x (List.mem_cons_of_mem _ hx)
    simp only [List.flatten_cons, List.length_append, List.length_cons, ih hrest, hp]
    ring

/-- A `memcpy` right behind the part of the vector already written. -/
theorem memcpy_append (a z p : List Nat) (hp : p.length ≤ z.length) :
    memcpy (a ++ z) a.length p = a ++ p ++ z.drop p.length := by
  unfold memcpy
  have h1 : (a ++ z).take a.length = a := by simp
  have h2 : (a ++ z).drop (a.length + p.length) = z.drop p.length := by
    rw [List.drop_append_eq_append_drop]
    simp
  rw [h1, h2]
  apply List.take_of_length_le
  simp only [List.length_append, List.length_drop]
  omega

/-- The drain loop after `n` rounds, on packets of `size` bytes and a block of
`total * size` zero bytes: the first `n` packets are gone from the queue and lie one after
the other at the start of the block. -/
theorem drain_block (size total : Nat) (q : List (List Nat))
    (hq : ∀ p ∈ q, p.length = size) (n : Nat) (hn : n ≤ q.length) (hqt : q.length ≤ total) :
    (List.range n).foldl (drainStep size) (q, List.replicate (total * size) 0)
      = (q.drop n, (q.take n).flatten ++ List.replicate ((total - n) * size) 0) := by
  induction n with
  | zero => simp
  | succ n ih =>
    have hlt : n < q.length := hn
    rw [List.range_succ, List.foldl_append, ih (by omega)]
    have hdrop : q.drop n = q[n] :: q.drop (n + 1) := List.drop_eq_getElem_cons hlt
    have hpn : q[n].length = size := hq _ (List.getElem_mem _)
    have htake : (q.take n).flatten.length = n * size := by
      rw [flatten_length_uniform size _ (fun p hp => hq p (List.mem_of_mem_take hp))]
      simp [Nat.min_eq_left (Nat.le_of_lt hlt)]
    have hz : q[n].length ≤ (List.replicate ((total - n) * size) 0).length := by
      rw [hpn, List.length_replicate]
      exact Nat.le_mul_of_pos_left _ (by omega)
    have hm := memcpy_append (q.take n).flatten (List.replicate ((total - n) * size) 0) q[n] hz
    rw [htake] at hm
    simp only [List.foldl_cons, List.foldl_nil, drainStep, hdrop, hm]
    have h3 : (total - n) * size - q[n].length = (total - (n + 1)) * size := by
      rw [hpn, Nat.sub_add_eq, Nat.sub_mul (total - n) 1 size, Nat.one_mul]
    have h4 : (q.take (n + 1)).flatten = (q.take n).flatten ++ q[n] := by
      rw [List.take_succ, List.getElem?_eq_getElem hlt, List.flatten_append]
      simp
    rw [List.drop_replicate, h3, h4]

/-- Cutting the concatenation of packets of `max_size` bytes at the multiples of `max_size`
gives the packets back, in order. -/
theorem symbolAt_flatten (cfg : Config) (q : List (List Nat))
    (hq : ∀ p ∈ q, p.length = cfg.max_size) :
    (List.range q.length).map (symbolAt cfg q.flatten) = q := by
  induction q with
  | nil => rfl
  | cons p rest ih =>
    have hp : p.length = cfg.max_size := hq p (List.mem_cons_self _ _)
    have hrest : ∀ x ∈ rest, x.length = cfg.max_size :=
      fun x hx => hq x (List.mem_cons_of_mem _ hx)
    rw [List.length_cons, List.range_succ_eq_map, List.map_cons, List.map_map]
    have h0 : symbolAt cfg (p :: rest).flatten 0 = p := by
      simp [symbolAt, List.flatten_cons, ← hp]
    have hs : (symbolAt cfg (p :: rest).flatten) ∘ Nat.succ = symbolAt cfg rest.flatten := by
      funext i
      simp only [Function.comp, symbolAt, List.flatten_cons, Nat.succ_eq_add_one]
      have : (i + 1) * cfg.max_size = p.length + i * cfg.max_size := by rw [hp]; ring
      rw [this, List.drop_append]
    rw [h0, hs, ih hrest]

/-- C17: when the packet that closes a batch arrives (so `K = max_symbols ≥ 1` packets are
queued with it) and each of the `K` packets has exactly `max_size` bytes, the block that
`coding` lays out for the encoder is the concatenation of the `K` packets in enqueue order;
cutting that block into `K` chunks of `max_size` bytes at the offsets `i * max_size` gives
the `K` packets back, in order; and the delivery loop of the destination, run on a decoder
built with `(max_symbols, max_size)` whose `copy_symbols` returns that block, hands exactly
these `K` packets to the receive callback, in enqueue order. -/
theorem C17_batch_layout (kodo : Kodo) (cfg : Config) (s : State) (packet : List Nat)
    (dest protocolNumber : Nat) (hlen : s.m_queue.length + 1 = cfg.max_symbols)
    (hsize : ∀ p ∈ s.m_queue ++ [packet], p.length = cfg.max_size) :
    ∃ m_coded : coded,
      (coding cfg s packet dest protocolNumber).2.2 = [Effect.Schedule cfg.interval m_coded] ∧
      m_coded.m_encoder_data = (s.m_queue ++ [packet]).flatten ∧
      (List.range cfg.max_symbols).map
        (fun i => (m_coded.m_encoder_data.drop (i * cfg.max_size)).take cfg.max_size)
        = s.m_queue ++ [packet] ∧
      ∀ (d : Decoder) (type sender : Nat), d.symbols = cfg.max_symbols →
        d.symbol_size = cfg.max_size → kodo.copy_symbols d = m_coded.m_encoder_data →
        delivered (deliverLoop cfg (data_out kodo d) type sender) = s.m_queue ++ [packet] := by
  have hqlen : (s.m_queue ++ [packet]).length = cfg.max_symbols := by simp [hlen]
  have hpk : packet.length = cfg.max_size := hsize packet (by simp)
  have hblock := drain_block cfg.max_size cfg.max_symbols (s.m_queue ++ [packet]) hsize
    cfg.max_symbols (by omega) (by omega)
  have hdata : ((List.range cfg.max_symbols).foldl (drainStep packet.length)
      (s.m_queue ++ [packet],
        List.replicate (Encoder.build cfg.max_symbols packet.length).block_size 0)).2
      = (s.m_queue ++ [packet]).flatten := by
    rw [hpk]
    simp only [Encoder.block_size, Encoder.build]
    have ht : (s.m_queue ++ [packet]).take cfg.max_symbols = s.m_queue ++ [packet] :=
      List.take_of_length_le (by omega)
    rw [hblock, ht]
    simp
  have hcut : (List.range cfg.max_symbols).map (symbolAt cfg (s.m_queue ++ [packet]).flatten)
      = s.m_queue ++ [packet] := by
    rw [← hqlen]
    exact symbolAt_flatten cfg _ hsize
  refine ⟨{ t2 := cfg.interval, k := 0,
            m_encoder := Encoder.build cfg.max_symbols packet.length,
            protocolNumber := protocolNumber,
            h1 := (CodeHeader.new.SetGeneration s.generation).SetSourceMAC cfg.address,
            realTo := dest,
            m_encoder_data := ((List.range cfg.max_symbols).foldl (drainStep packet.length)
              (s.m_queue ++ [packet],
                List.replicate (Encoder.build cfg.max_symbols packet.length).block_size
                  0)).2 }, ?_, hdata, ?_, ?_⟩
  · simp only [coding, Enqueue1, List.length_append, List.length_singleton, hlen, if_true]
  · simp only [hdata]
    exact hcut
  · intro d type sender hd1 hd2 hcopy
    simp only [hdata] at hcopy
    have hout : data_out kodo d = (s.m_queue ++ [packet]).flatten := by
      unfold data_out fit
      rw [hcopy, List.take_append_of_le_length]
      · apply List.take_of_length_le
        rw [flatten_length_uniform cfg.max_size _ hsize, hqlen, Decoder.block_size, hd1, hd2]
      · rw [flatten_length_uniform cfg.max_size _ hsize, hqlen, Decoder.block_size, hd1, hd2]
    rw [delivered_deliverLoop, hout]
    exact hcut

/-- Witness for C17: two packets of two bytes at a node with generations of two symbols of
two bytes. -/
theorem C17_batch_layout_witness :
    ∃ m_coded : coded,
      (coding Config.sample (Enqueue1 State.init [7, 8]) [1, 2] 9 2048).2.2
        = [Effect.Schedule 500 m_coded] ∧
      m_coded.m_encoder_data = [7, 8, 1, 2] ∧
      (List.range 2).map (fun i => (m_coded.m_encoder_data.drop (i * 2)).take 2)
        = [[7, 8], [1, 2]] := by
  obtain ⟨m, h1, h2, h3, _⟩ :=
    C17_batch_layout Kodo.sample Config.sample (Enqueue1 State.init [7, 8]) [1, 2] 9 2048
      (by decide) (by decide)
  exact ⟨m, h1, h2, h3⟩

end Protocol0

/-! ## Theorems: the acknowledgement in `adhoc_simulations` -/

namespace Adhoc

/-- C18 (evaluation of the code at the failing input): generation 1, one symbol. The first
tick of the source sends the frame `[0, 1, 0, 0, 77]`. When it completes generation 1 at
the destination, the acknowledgement sent back is built from a fresh header and carries
generation id 0. The source, processing it, sets its decoded flag for id 0 and leaves the
flag of id 1 at 0, and its next tick for generation 1 transmits again. -/
theorem C18_first_ack_carries_generation_zero :
    (SendCode Protocol0.Kodo.sample (Config.single source) State.init (coded.single 1)).2.head?
      = some (Effect.Send [0, 1, 0, 0, 77] des 2048) ∧
    ((DecodingReceive Protocol0.Kodo.sample (Config.single des) State.init
        [0, 1, 0, 0, 77] 2048 source).map fun r => (r.2.1.decoded_flag 1, r.2.2))
      = some (1, [Effect.Send [0, 0, 0, 0, 0, 0, 0, 0, 0, 0, 0, 0, 0, 0] source 100,
                  Effect.NotifyRx [77], Effect.ReceiveCallback [77] 2048 des]) ∧
    (RemoveHeader [0, 0, 0, 0, 0, 0, 0, 0, 0, 0, 0, 0, 0, 0]).1.GetGeneration = 0 ∧
    ((DecodingReceive Protocol0.Kodo.sample (Config.single source) State.init
        [0, 0, 0, 0, 0, 0, 0, 0, 0, 0, 0, 0, 0, 0] 100 des).map fun r =>
          (r.2.1.decoded_flag 0, r.2.1.decoded_flag 1,
            (SendCode Protocol0.Kodo.sample (Config.single source) r.2.1
              (coded.single 1)).2.head?))
      = some (1, 0, some (Effect.Send [0, 1, 0, 0, 77] des 2048)) := by
  decide

end Adhoc

/-! ## Theorems: the relay numbering -/

namespace Protocol0

end Protocol0
